import Mathlib

/-!
Verification of the gem5 statistics extraction and aggregation pipeline.

The development shallowly embeds the Python sources:
  * src/utils/gem5_parser.py   (line classifier, block extractor, interest filter)
  * src/scripts/original_stats.py (the five-shape line classifier and the
    NO_MATCH extraction script)
  * src/utils/parse_interest.py (run discovery and batch conversion)
  * src/utils/analyzer.py      (metric rule engine and query layer)

Lines are lists of characters; Python floats are exact rationals extended
with the IEEE special values that numpy and pandas produce; fallible Python
code (a ValueError escaping a constructor) is an Except value.
-/

deriving instance DecidableEq for Except

namespace Gem5

/-- Characters Python str.strip and the regex class \s treat as whitespace
(ASCII range; the analysed log files are ASCII). -/
def pySpace (c : Char) : Bool :=
  c = ' ' || c = '\t' || c = '\n' || c = '\r' || c = Char.ofNat 11 || c = Char.ofNat 12

/-- Python str.strip from the left. -/
def pyLstrip (l : List Char) : List Char := l.dropWhile pySpace

/-- Python str.strip from the right. -/
def pyRstrip (l : List Char) : List Char := (l.reverse.dropWhile pySpace).reverse

/-- Python str.strip on both ends. -/
def pyStrip (l : List Char) : List Char := pyRstrip (pyLstrip l)

/-- Python str.strip with an explicit character argument, as in val.strip of
the percent sign: the character is removed from both ends. -/
def pyStripChar (ch : Char) (l : List Char) : List Char :=
  ((l.dropWhile (fun c => c = ch)).reverse.dropWhile (fun c => c = ch)).reverse

/-- Python substring containment a in b. -/
def isSubstr (a b : List Char) : Bool := b.tails.any (fun t => a.isPrefixOf t)

def isSubstrS (a b : String) : Bool := isSubstr a.data b.data

/-- Python dict insertion: an existing key keeps its position and gets the new
value, a new key is appended. -/
def dictInsert {β : Type} : List (String × β) → String → β → List (String × β)
  | [], k, v => [(k, v)]
  | (a, b) :: t, k, v => if a = k then (a, v) :: t else (a, b) :: dictInsert t k v

/-- First whitespace-separated token of a line, line.split and index zero. -/
def firstToken (l : List Char) : List Char :=
  (l.dropWhile pySpace).takeWhile (fun c => !pySpace c)

/-- Floating-point values as the value parser, numpy and pandas see them:
exact rationals plus the IEEE special values. -/
inductive PFloat where
  | fin (q : ℚ)
  | inf
  | ninf
  | nan
  deriving DecidableEq, Repr

namespace PFloat

def isNan : PFloat → Bool
  | nan => true
  | _ => false

/-- IEEE addition restricted to the cases the pipeline can produce. -/
def add : PFloat → PFloat → PFloat
  | nan, _ => nan
  | _, nan => nan
  | inf, ninf => nan
  | ninf, inf => nan
  | inf, _ => inf
  | _, inf => inf
  | ninf, _ => ninf
  | _, ninf => ninf
  | fin a, fin b => fin (a + b)

/-- IEEE division as numpy true division performs it: a nonzero numerator
over zero gives a signed infinity, zero over zero gives NaN. The sign of a
rational zero is always positive, which matches every value the pipeline
feeds into a division. -/
def div : PFloat → PFloat → PFloat
  | nan, _ => nan
  | _, nan => nan
  | fin a, fin b =>
      if b = 0 then (if a = 0 then nan else if 0 < a then inf else ninf)
      else fin (a / b)
  | fin _, inf => fin 0
  | fin _, ninf => fin 0
  | inf, fin b => if 0 ≤ b then inf else ninf
  | ninf, fin b => if 0 ≤ b then ninf else inf
  | inf, inf => nan
  | inf, ninf => nan
  | ninf, inf => nan
  | ninf, ninf => nan

/-- IEEE multiplication, needed only for the scale operator. -/
def mul : PFloat → PFloat → PFloat
  | nan, _ => nan
  | _, nan => nan
  | fin a, fin b => fin (a * b)
  | inf, fin b => if b = 0 then nan else if 0 < b then inf else ninf
  | fin a, inf => if a = 0 then nan else if 0 < a then inf else ninf
  | ninf, fin b => if b = 0 then nan else if 0 < b then ninf else inf
  | fin a, ninf => if a = 0 then nan else if 0 < a then ninf else inf
  | inf, inf => inf
  | ninf, ninf => inf
  | inf, ninf => ninf
  | ninf, inf => ninf

def sum (l : List PFloat) : PFloat := l.foldl add (fin 0)

/-- Mean with the pandas default skipna semantics: NaN entries are ignored and
the mean of an empty or all-NaN collection is NaN. -/
def mean (l : List PFloat) : PFloat :=
  let v := l.filter (fun x => !x.isNan)
  if v.isEmpty then nan else div (sum v) (fin v.length)

end PFloat

def digitVal (c : Char) : ℕ := c.toNat - 48

def digitsToNat (ds : List Char) : ℕ := ds.foldl (fun a c => 10 * a + digitVal c) 0

/-- Python int() on a bare token: one optional sign then one or more ASCII
digits (numeric-literal underscores and surrounding whitespace, which no
analysed token contains, are not modelled). -/
def pyIntParse (l : List Char) : Option ℤ :=
  match l with
  | '-' :: ds => if !ds.isEmpty && ds.all Char.isDigit then some (-(digitsToNat ds : ℤ)) else none
  | '+' :: ds => if !ds.isEmpty && ds.all Char.isDigit then some ((digitsToNat ds : ℤ)) else none
  | ds => if !ds.isEmpty && ds.all Char.isDigit then some ((digitsToNat ds : ℤ)) else none

/-- Mantissa-with-exponent part of the Python float() grammar, sign and the
special words already removed: digits with an optional dot and fraction,
then an optional exponent that must consume the whole remainder. -/
def pyFloatCore (l : List Char) : Option ℚ :=
  let ip := l.takeWhile Char.isDigit
  let r1 := l.dropWhile Char.isDigit
  let hasDot : Bool := match r1 with | '.' :: _ => true | _ => false
  let fp := match r1 with | '.' :: t => t.takeWhile Char.isDigit | _ => []
  let r2 := match r1 with | '.' :: t => t.dropWhile Char.isDigit | _ => r1
  if ip.isEmpty && (!hasDot || fp.isEmpty) then none
  else
    let mant : ℚ := (digitsToNat ip : ℚ) + (digitsToNat fp : ℚ) / (10 : ℚ) ^ fp.length
    match r2 with
    | [] => some mant
    | e :: t =>
      if e = 'e' || e = 'E' then
        match t with
        | '-' :: ds =>
          if !ds.isEmpty && ds.all Char.isDigit then some (mant / (10 : ℚ) ^ digitsToNat ds)
          else none
        | '+' :: ds =>
          if !ds.isEmpty && ds.all Char.isDigit then some (mant * (10 : ℚ) ^ digitsToNat ds)
          else none
        | ds =>
          if !ds.isEmpty && ds.all Char.isDigit then some (mant * (10 : ℚ) ^ digitsToNat ds)
          else none
      else none

def asciiLower (c : Char) : Char :=
  if 'A' ≤ c && c ≤ 'Z' then Char.ofNat (c.toNat + 32) else c

/-- Unsigned part of Python float(): the case-insensitive special words give
the IEEE special values, everything else goes through the core grammar. -/
def pyFloatMag (l : List Char) : Option PFloat :=
  let w := l.map asciiLower
  if w = ['i', 'n', 'f'] || w = ['i', 'n', 'f', 'i', 'n', 'i', 't', 'y'] then some PFloat.inf
  else if w = ['n', 'a', 'n'] then some PFloat.nan
  else (pyFloatCore l).map PFloat.fin

def pyFloatNeg : PFloat → PFloat
  | PFloat.fin q => PFloat.fin (-q)
  | PFloat.inf => PFloat.ninf
  | PFloat.ninf => PFloat.inf
  | PFloat.nan => PFloat.nan

/-- Python float() on a bare token. -/
def pyFloatParse (l : List Char) : Option PFloat :=
  match l with
  | '-' :: t => (pyFloatMag t).map pyFloatNeg
  | '+' :: t => pyFloatMag t
  | _ => pyFloatMag l

/-- A Python scalar value as the stat value parsers produce it. -/
inductive SVal where
  | pnone
  | pint (z : ℤ)
  | pfloat (f : PFloat)
  | pstr (s : String)
  deriving DecidableEq, Repr

/-- A value the interest filter stores for a fragment: a scalar (Python also
stores its None no-match marker here) or a dict of matched stats. -/
inductive EVal where
  | base (v : SVal)
  | dict (m : List (String × SVal))
  deriving DecidableEq, Repr

/-- Python "str".isdigit of the minus-stripped token, the integer test of
Gem5Stat. -/
def pyIsdigitTest (l : List Char) : Bool := !l.isEmpty && l.all Char.isDigit

/-- Gem5Stat value parsing in src/utils/gem5_parser.py. The error value is a
ValueError escaping from an inner int() or float() call; the final branch
falls back from float to the raw string. -/
def parse_value_gem (l : List Char) : Except Unit SVal :=
  if l = ['n', 'a', 'n'] then .ok .pnone
  else if l = ['i', 'n', 'f'] then .ok (.pfloat (.fin ((10 : ℚ) ^ 99)))
  else if l.contains '%' then
    match pyFloatParse (pyStripChar '%' l) with
    | some f => .ok (.pfloat f)
    | none => .error ()
  else if l.contains '.' then
    match pyFloatParse l with
    | some f => .ok (.pfloat f)
    | none => .error ()
  else if pyIsdigitTest (l.dropWhile (fun c => c = '-')) then
    match pyIntParse l with
    | some z => .ok (.pint z)
    | none => .error ()
  else
    match pyFloatParse l with
    | some f => .ok (.pfloat f)
    | none => .ok (.pstr (String.mk l))

/-- parse_value in src/scripts/original_stats.py (the same function appears in
src/scripts/get_parameter.py): no fallback after a failed int(). -/
def parse_value_orig (l : List Char) : Except Unit SVal :=
  if l = ['n', 'a', 'n'] then .ok .pnone
  else if l = ['i', 'n', 'f'] then .ok (.pfloat (.fin ((10 : ℚ) ^ 99)))
  else if l.contains '%' then
    match pyFloatParse (pyStripChar '%' l) with
    | some f => .ok (.pfloat f)
    | none => .error ()
  else if l.contains '.' then
    match pyFloatParse l with
    | some f => .ok (.pfloat f)
    | none => .error ()
  else
    match pyIntParse l with
    | some z => .ok (.pint z)
    | none => .error ()

/-- Character class of the regex fragment for stat names (ASCII word
characters plus dot, colon, minus and plus). -/
def nameChar (c : Char) : Bool :=
  c.isAlphanum || c = '_' || c = '.' || c = ':' || c = '-' || c = '+'

/-- Character class of digits, dot and the exponent letters. -/
def numChar (c : Char) : Bool := c.isDigit || c = '.' || c = 'e' || c = 'E'

/-- Scan the name group: a nonempty maximal run of name characters.  The class
contains no whitespace and each source regex requires whitespace right after
the group, so the greedy maximal run is exactly what the backtracking engine
accepts. -/
def scanName (l : List Char) : Option (List Char × List Char) :=
  let n := l.takeWhile nameChar
  if n.isEmpty then none else some (n, l.dropWhile nameChar)

/-- Scan one-or-more whitespace and return the rest. -/
def scanWs (l : List Char) : Option (List Char) :=
  if (l.takeWhile pySpace).isEmpty then none else some (l.dropWhile pySpace)

/-- Scan the numeric group: an optional sign then a nonempty maximal run of
numeric characters. -/
def scanNum (l : List Char) : Option (List Char × List Char) :=
  match l with
  | [] => none
  | c :: t =>
    if c = '-' || c = '+' then
      let d := t.takeWhile numChar
      if d.isEmpty then none else some (c :: d, t.dropWhile numChar)
    else
      let d := l.takeWhile numChar
      if d.isEmpty then none else some (d, l.dropWhile numChar)

/-- Scan the value alternation of numeric token, nan, inf.  The possible first
characters of the three branches are disjoint, so committed choice agrees
with the backtracking engine. -/
def scanValTok (l : List Char) : Option (List Char × List Char) :=
  match scanNum l with
  | some r => some r
  | none =>
    if ['n', 'a', 'n'].isPrefixOf l then some (['n', 'a', 'n'], l.drop 3)
    else if ['i', 'n', 'f'].isPrefixOf l then some (['i', 'n', 'f'], l.drop 3)
    else none

def expectChar (c : Char) (l : List Char) : Option (List Char) :=
  match l with
  | [] => none
  | d :: t => if d = c then some t else none

/-- re.match of name, whitespace, value-or-nan-or-inf, whitespace, hash,
space, then the description to the end of the line. -/
def matchNumHash (l : List Char) : Option (List Char × List Char × List Char) :=
  match scanName l with
  | none => none
  | some (n, r1) =>
    match scanWs r1 with
    | none => none
    | some r2 =>
      match scanValTok r2 with
      | none => none
      | some (v, r3) =>
        match scanWs r3 with
        | none => none
        | some r4 =>
          match expectChar '#' r4 with
          | none => none
          | some r5 =>
            match expectChar ' ' r5 with
            | none => none
            | some r6 => some (n, v, r6)

/-- re.match of name, whitespace, numeric value, whitespace, then an opening
parenthesis with a closing parenthesis somewhere after it. -/
def matchNumParen (l : List Char) : Option (List Char × List Char) :=
  match scanName l with
  | none => none
  | some (n, r1) =>
    match scanWs r1 with
    | none => none
    | some r2 =>
      match scanNum r2 with
      | none => none
      | some (v, r3) =>
        match scanWs r3 with
        | none => none
        | some r4 =>
          match expectChar '(' r4 with
          | none => none
          | some r5 => if r5.contains ')' then some (n, v) else none

/-- re.match of the three-number hash shape: name, value, percent value,
cumulative percent value, optional whitespace, hash, space, description. -/
def matchThreeHash (l : List Char) :
    Option (List Char × List Char × List Char × List Char × List Char) :=
  match scanName l with
  | none => none
  | some (n, r1) =>
    match scanWs r1 with
    | none => none
    | some r2 =>
      match scanNum r2 with
      | none => none
      | some (v, r3) =>
        match scanWs r3 with
        | none => none
        | some r4 =>
          match scanNum r4 with
          | none => none
          | some (p, r5) =>
            match expectChar '%' r5 with
            | none => none
            | some r6 =>
              match scanWs r6 with
              | none => none
              | some r7 =>
                match scanNum r7 with
                | none => none
                | some (cu, r8) =>
                  match expectChar '%' r8 with
                  | none => none
                  | some r9 =>
                    match expectChar '#' (r9.dropWhile pySpace) with
                    | none => none
                    | some r11 =>
                      match expectChar ' ' r11 with
                      | none => none
                      | some r12 => some (n, v, p, cu, r12)

/-- re.match of the three-number parenthetical shape. -/
def matchThreeParen (l : List Char) :
    Option (List Char × List Char × List Char × List Char) :=
  match scanName l with
  | none => none
  | some (n, r1) =>
    match scanWs r1 with
    | none => none
    | some r2 =>
      match scanNum r2 with
      | none => none
      | some (v, r3) =>
        match scanWs r3 with
        | none => none
        | some r4 =>
          match scanNum r4 with
          | none => none
          | some (p, r5) =>
            match expectChar '%' r5 with
            | none => none
            | some r6 =>
              match scanWs r6 with
              | none => none
              | some r7 =>
                match scanNum r7 with
                | none => none
                | some (cu, r8) =>
                  match expectChar '%' r8 with
                  | none => none
                  | some r9 =>
                    match scanWs r9 with
                    | none => none
                    | some r10 =>
                      match expectChar '(' r10 with
                      | none => none
                      | some r11 =>
                        if r11.contains ')' then some (n, v, p, cu) else none

/-- The two fields Gem5Stat.parse_line in src/utils/gem5_parser.py sets. -/
structure GStat where
  name : String
  value : SVal
  deriving DecidableEq, Repr

/-- Gem5Stat.parse_line in src/utils/gem5_parser.py: the divider branch, the
two-number hash shape and the two-number parenthetical shape; anything else
raises.  A ValueError escaping the value parse inside a matched branch also
propagates. -/
def parse_line (l0 : List Char) : Except Unit GStat :=
  let l := pyStrip l0
  if l.contains '|' then
    .ok ⟨String.mk (firstToken l), .pnone⟩
  else
    match matchNumHash l with
    | some (n, v, _) => (parse_value_gem v).map (fun w => ⟨String.mk n, w⟩)
    | none =>
      match matchNumParen l with
      | some (n, v) => (parse_value_gem v).map (fun w => ⟨String.mk n, w⟩)
      | none => .error ()

/-- The fields Gem5Stat in src/scripts/original_stats.py sets. -/
structure OStat where
  name : String
  value : SVal
  percentage : Option SVal := none
  percentage_cumulative : Option SVal := none
  description : String := ""
  deriving DecidableEq, Repr

/-- Tail after the first hash character, line.split on hash with count one. -/
def splitHashTail : List Char → Option (List Char)
  | [] => none
  | c :: t => if c = '#' then some t else splitHashTail t

/-- Gem5Stat construction in src/scripts/original_stats.py, with its five
branches in source order. -/
def parse_line_orig (l0 : List Char) : Except Unit OStat :=
  let l := pyStrip l0
  if l.contains '|' then
    let d := match splitHashTail l with
             | some t => String.mk (pyStrip t)
             | none => ""
    .ok { name := String.mk (firstToken l), value := .pnone, description := d }
  else
    match matchNumHash l with
    | some (n, v, d) =>
      (parse_value_orig v).map
        (fun w => { name := String.mk n, value := w, description := String.mk d })
    | none =>
    match matchThreeHash l with
    | some (n, v, p, cu, d) =>
      match parse_value_orig v, parse_value_orig p, parse_value_orig cu with
      | .ok w, .ok pw, .ok cw =>
        .ok { name := String.mk n, value := w, percentage := some pw,
              percentage_cumulative := some cw, description := String.mk d }
      | _, _, _ => .error ()
    | none =>
    match matchNumParen l with
    | some (n, v) =>
      (parse_value_orig v).map
        (fun w => { name := String.mk n, value := w, description := "(Unspecified)" })
    | none =>
    match matchThreeParen l with
    | some (n, v, p, cu) =>
      match parse_value_orig v, parse_value_orig p, parse_value_orig cu with
      | .ok w, .ok pw, .ok cw =>
        .ok { name := String.mk n, value := w, percentage := some pw,
              percentage_cumulative := some cw, description := "(Unspecified)" }
      | _, _, _ => .error ()
    | none => .error ()

def beginSentinel : List Char :=
  "---------- Begin Simulation Statistics ----------".data

def endSentinel : List Char :=
  "---------- End Simulation Statistics   ----------".data

/-- Loop body of Gem5StatsParser.parse_stats_file: state is the inside-block
flag and the accumulated dict; the first End sentinel breaks the loop. -/
def parseStatsGo : List (List Char) → Bool → List (String × SVal) → List (String × SVal)
  | [], _, stats => stats
  | l :: ls, inBlock, stats =>
    let t := pyStrip l
    if t = beginSentinel then parseStatsGo ls true []
    else if t = endSentinel then stats
    else if inBlock && !t.isEmpty then
      match parse_line l with
      | .ok st => parseStatsGo ls inBlock (dictInsert stats st.name st.value)
      | .error _ => parseStatsGo ls inBlock stats
    else parseStatsGo ls inBlock stats

/-- Gem5StatsParser.parse_stats_file in src/utils/gem5_parser.py: only the
first complete block is consumed; a file without a Begin sentinel yields the
initial empty dict. -/
def parse_stats_file (lines : List (List Char)) : List (String × SVal) :=
  parseStatsGo lines false []

/-- Loop body of parse_gem5_stats in src/scripts/original_stats.py: every
completed block is appended; lines consisting of exactly one newline are
skipped before classification. -/
def origBlocksGo : List (List Char) → Bool → List (String × OStat) →
    List (List (String × OStat)) → List (List (String × OStat))
  | [], _, _, acc => acc.reverse
  | l :: ls, inBlock, cur, acc =>
    let t := pyStrip l
    if t = beginSentinel then origBlocksGo ls true [] acc
    else if t = endSentinel then origBlocksGo ls false cur (cur :: acc)
    else if inBlock then
      if l = ['\n'] then origBlocksGo ls inBlock cur acc
      else
        match parse_line_orig l with
        | .ok st => origBlocksGo ls inBlock (dictInsert cur st.name st) acc
        | .error _ => origBlocksGo ls inBlock cur acc
    else origBlocksGo ls inBlock cur acc

/-- parse_gem5_stats in src/scripts/original_stats.py: the ordered list of all
completed blocks. -/
def parse_gem5_stats (lines : List (List Char)) : List (List (String × OStat)) :=
  origBlocksGo lines false [] []

/-- Gem5StatsParser.extract_interest_stats: for each interest fragment, the
substring matches against the block; zero matches store Python None, one
match stores the bare value, several matches store the dict of them. -/
def extract_interest_stats (interests : List String) (stats : List (String × SVal)) :
    List (String × EVal) :=
  interests.foldl
    (fun acc i =>
      let m := stats.filter (fun p => isSubstrS i p.1)
      let r : EVal :=
        if m.isEmpty then .base .pnone
        else if m.length = 1 then .base (m.headD ("", .pnone)).2
        else .dict m
      dictInsert acc i r)
    []

/-- Flattening step of Gem5StatsParser.parse_and_extract: a dict value
contributes one column per matched stat name, a scalar value one column named
by the fragment.  The association list is the single row of the DataFrame the
method returns, and that DataFrame is empty exactly when this list is. -/
def flattenRecord (r : List (String × EVal)) : List (String × SVal) :=
  r.foldl
    (fun acc p =>
      match p.2 with
      | .dict m => m.foldl (fun a q => dictInsert a q.1 q.2) acc
      | .base v => dictInsert acc p.1 v)
    []

/-- Gem5StatsParser.parse_and_extract: first block, interest extraction,
flattening. -/
def parse_and_extract (interests : List String) (lines : List (List Char)) :
    List (String × SVal) :=
  flattenRecord (extract_interest_stats interests (parse_stats_file lines))

/-- Extraction loop of main in src/scripts/original_stats.py: one output row
per matched stat, and an explicit NO_MATCH row with value N/A for a fragment
with zero matches. -/
def origExtractRows (interests : List String) (stats : List (String × OStat)) :
    List (String × String × SVal) :=
  interests.flatMap (fun i =>
    let m := stats.filter (fun p => isSubstrS i p.1)
    if m.isEmpty then [(i, "NO_MATCH", SVal.pstr "N/A")]
    else m.map (fun p => (i, p.1, p.2.value)))

/-- One discovered run: the identifiers derived from the directory name and
the lines of its stats file. -/
structure RunEntry where
  benchmark : String
  config : String
  lines : List (List Char)

/-- Splitting step of auto_discover_benchmarks in src/utils/parse_interest.py:
a directory name with an underscore splits at the first underscore into the
benchmark and config identifiers; a name without one is skipped. -/
def autoDiscoverSplit (dirName : String) : Option (String × String) :=
  if dirName.data.contains '_' then
    some (String.mk (dirName.data.takeWhile (fun c => c ≠ '_')),
          String.mk ((dirName.data.dropWhile (fun c => c ≠ '_')).drop 1))
  else none

/-- parse_all_raw in src/utils/parse_interest.py: the written per-run files
(name and single-row content) plus the success and total counts.  A run is
skipped exactly when its flattened record has no columns, which is the only
way the produced one-row DataFrame can be empty. -/
def parse_all_raw (interests : List String) (entries : List RunEntry) :
    List (String × List (String × SVal)) × ℕ × ℕ :=
  let written := entries.filterMap (fun e =>
    let flat := parse_and_extract interests e.lines
    if flat.isEmpty then none
    else
      let flat1 := dictInsert flat "benchmark" (.pstr e.benchmark)
      let flat2 := dictInsert flat1 "config" (.pstr e.config)
      some (e.benchmark ++ "_" ++ e.config ++ ".csv", flat2))
  (written, written.length, entries.length)

/-- A per-run table as load_results reads it back from a CSV file: column
names and rows of float cells (pandas turns missing and None cells into
NaN). -/
structure Frame where
  cols : List String
  rows : List (List PFloat)

/-- The operator tags the METRIC_RULES table uses: the identity string, the
ratio string, or the scale tuple with its factor. -/
inductive Op where
  | identity
  | ratio
  | scale (q : ℚ)

/-- A metric rule: the column-name patterns (each modelled extensionally as
the predicate its compiled regex induces on column names through re.match)
and the operator. -/
structure Rule where
  patterns : List (String → Bool)
  op : Op

def selectCols (df : Frame) (p : String → Bool) : List String :=
  df.cols.filter p

/-- Cells of one row restricted to the columns matched by a pattern. -/
def rowCells (df : Frame) (p : String → Bool) (row : List PFloat) : List PFloat :=
  ((df.cols.zip row).filter (fun q => p q.1)).map (fun q => q.2)

/-- Per-row mean across the columns one pattern matches: the row-axis mean of
the selected sub-frame. -/
def patVector (df : Frame) (p : String → Bool) : List PFloat :=
  df.rows.map (fun row => PFloat.mean (rowCells df p row))

/-- ParamGrouper.build_vectors: one optional vector per pattern, None when the
pattern matches no column. -/
def build_vectors (df : Frame) (ps : List (String → Bool)) : List (Option (List PFloat)) :=
  ps.map (fun p => if (selectCols df p).isEmpty then none else some (patVector df p))

/-- ParamGrouper.apply_op.  The none result stands for the Python None fall
through; the identity and scale heads also evaluate to none on an empty
vector list, where Python would raise an IndexError no rule of the table can
trigger. -/
def apply_op (vs : List (List PFloat)) (op : Op) : Option (List PFloat) :=
  match op with
  | .identity => vs.head?
  | .ratio =>
    match vs with
    | [a, b] => some (List.zipWith PFloat.div a b)
    | _ => none
  | .scale q => vs.head?.map (List.map (fun x => PFloat.mul x (.fin q)))

/-- ParamGrouper.compute_metric: NaN when some pattern matched nothing or the
operator fell through, otherwise the mean of the final vector. -/
def compute_metric (df : Frame) (r : Rule) : PFloat :=
  let vs := build_vectors df r.patterns
  if vs.any (fun v => v.isNone) then .nan
  else
    match apply_op vs.reduceOption r.op with
    | none => .nan
    | some fv => PFloat.mean fv

def litThen (pre l : List Char) : Option (List Char) :=
  if pre.isPrefixOf l then some (l.drop pre.length) else none

def digitsThen (l : List Char) : Option (List Char) :=
  let d := l.takeWhile Char.isDigit
  if d.isEmpty then none else some (l.dropWhile Char.isDigit)

/-- Predicate of the anchored cpu ipc regex of METRIC_RULES. -/
def patCpuIpc (s : String) : Bool :=
  (do
    let r1 ← litThen "system.cpu".data s.data
    let r2 ← digitsThen r1
    let r3 ← litThen ".ipc".data r2
    if r3.isEmpty then some () else none).isSome

/-- Predicate of the anchored committed ipc regex of METRIC_RULES. -/
def patCommitIpc (s : String) : Bool :=
  (do
    let r1 ← litThen "system.cpu".data s.data
    let r2 ← digitsThen r1
    let r3 ← litThen ".commitStats".data r2
    let r4 ← digitsThen r3
    let r5 ← litThen ".ipc".data r4
    if r5.isEmpty then some () else none).isSome

/-- Predicate of the anchored compute-unit ipc regex of METRIC_RULES. -/
def patCuIpc (s : String) : Bool :=
  (do
    let r1 ← litThen "system.cpu".data s.data
    let r2 ← digitsThen r1
    let r3 ← litThen ".CUs".data r2
    let r4 ← digitsThen r3
    let r5 ← litThen ".ipc".data r4
    if r5.isEmpty then some () else none).isSome

def patL3Hits (s : String) : Bool := s = "L3CacheMemory.m_demand_hits"

def patL3Accesses (s : String) : Bool := s = "L3CacheMemory.m_demand_accesses"

/-- The METRIC_RULES table of src/utils/analyzer.py. -/
def METRIC_RULES : List (String × Rule) :=
  [("cpu_ipc", ⟨[patCpuIpc], .identity⟩),
   ("cpu_committed_ipc", ⟨[patCommitIpc], .identity⟩),
   ("gpu_ipc", ⟨[patCuIpc], .identity⟩),
   ("L3_cache_hit_rate", ⟨[patL3Hits, patL3Accesses], .ratio⟩)]

/-- One row of the grouped table Gem5Analyzer.load_results builds. -/
structure Record where
  benchmark : String
  config : String
  metrics : List (String × PFloat)
  deriving DecidableEq, Repr

/-- Gem5Analyzer.load_results over the persisted files given as stem and
frame pairs: benchmark is the stem cut at the first underscore, config is
always the constant default, and every rule of the table is evaluated on the
run frame. -/
def load_results (rules : List (String × Rule)) (files : List (String × Frame)) :
    List Record :=
  files.map (fun f =>
    { benchmark := String.mk (f.1.data.takeWhile (fun c => c ≠ '_'))
      config := "default"
      metrics := rules.map (fun r => (r.1, compute_metric f.2 r.2)) })

/-- Result shape of Gem5Analyzer.select: the named ValueError, the empty
DataFrame, a series indexed by benchmark, a series indexed by config, or a
pivot table. -/
inductive SelectResult where
  | err (metric : String)
  | emptyTable
  | byBenchmark (s : List (String × PFloat))
  | byConfig (s : List (String × PFloat))
  | pivot (rowKeys colKeys : List String) (cells : List (List PFloat))
  deriving DecidableEq, Repr

/-- Code-point lexicographic comparison, the order pandas group keys use. -/
def strLt : List Char → List Char → Bool
  | [], [] => false
  | [], _ :: _ => true
  | _ :: _, [] => false
  | x :: xs, y :: ys =>
    if x.val < y.val then true else if y.val < x.val then false else strLt xs ys

def sInsert (a : String) : List String → List String
  | [] => [a]
  | b :: t => if strLt a.data b.data then a :: b :: t else b :: sInsert a t

/-- Sorted distinct keys, as pandas groupby and pivot_table produce them. -/
def sortedKeys (l : List String) : List String :=
  l.dedup.foldl (fun acc a => sInsert a acc) []

def getMetric (r : Record) (m : String) : PFloat :=
  (r.metrics.lookup m).getD .nan

/-- Columns of the grouped DataFrame.  pandas takes the union of record keys;
load_results emits the same keys for every record, so the head record
determines them. -/
def gcols : List Record → List String
  | [] => []
  | r :: _ => "benchmark" :: "config" :: r.metrics.map Prod.fst

/-- The two successive isin filters of Gem5Analyzer.select. -/
def filteredRecords (g : List Record) (benchmarks configs : List String) : List Record :=
  (g.filter (fun r => benchmarks.contains r.benchmark)).filter
    (fun r => configs.contains r.config)

/-- groupby on a key followed by the mean aggregation of one metric column. -/
def groupAgg (f : List Record) (key : Record → String) (metric : String) :
    List (String × PFloat) :=
  (sortedKeys (f.map key)).map (fun k =>
    (k, PFloat.mean ((f.filter (fun r => key r = k)).map (fun r => getMetric r metric))))

/-- Aggregated mean of one metric over the records of one (benchmark, config)
group, the cell value pivot_table computes; an unobserved combination has no
records and the mean of nothing is NaN, which is how unstacking fills it. -/
def groupCell (f : List Record) (metric b c : String) : PFloat :=
  PFloat.mean (((f.filter (fun r => r.benchmark = b)).filter
    (fun r => r.config = c)).map (fun r => getMetric r metric))

/-- The (benchmark, config) groups pivot_table keeps.  pandas aggregates each
observed pair with groupby and, under the default dropna, drops every group
whose aggregated value is NaN before unstacking; a benchmark or config whose
groups are all dropped therefore vanishes from the pivot keys.  The
post-unstack drop of all-NaN columns is a no-op with a single value column,
because every surviving config has at least one non-NaN cell. -/
def pivotGroups (f : List Record) (metric : String) : List (String × String) :=
  ((f.map (fun r => (r.benchmark, r.config))).dedup).filter
    (fun bc => !(groupCell f metric bc.1 bc.2).isNan)

/-- Gem5Analyzer.select with the default mean aggregation.  An aggregation of
a non-metric column such as benchmark itself, which pandas would reject with
a type error, is outside the modelled behaviour.  The pivot branch models
pivot_table with its default dropna: row and column keys are the sorted
benchmarks and configs of the surviving groups only, and when every group
aggregates to NaN the result is the empty pivot, matching the empty frame
pandas returns. -/
def select (g : List Record) (metric : String) (benchmarks configs : List String) :
    SelectResult :=
  if g.isEmpty then .emptyTable
  else if metric ∈ gcols g then
    let f := filteredRecords g benchmarks configs
    if f.isEmpty then .emptyTable
    else if 1 < benchmarks.length ∧ configs.length = 1 then
      .byBenchmark (groupAgg f Record.benchmark metric)
    else if benchmarks.length = 1 ∧ 1 < configs.length then
      .byConfig (groupAgg f Record.config metric)
    else if 1 < benchmarks.length ∧ 1 < configs.length then
      .pivot (sortedKeys ((pivotGroups f metric).map Prod.fst))
        (sortedKeys ((pivotGroups f metric).map Prod.snd))
        ((sortedKeys ((pivotGroups f metric).map Prod.fst)).map (fun b =>
          (sortedKeys ((pivotGroups f metric).map Prod.snd)).map (fun c =>
            groupCell f metric b c)))
    else .emptyTable
  else .err metric

/-- Spec-side ratio formula of section 4.5, written from the spec text: the
element-wise quotient of the per-run mean of the A columns by the per-run
mean of the B columns, reduced to one scalar by the mean over the remaining
sample dimension. -/
def specRatioMetric (df : Frame) (pA pB : String → Bool) : PFloat :=
  PFloat.mean (List.zipWith PFloat.div (patVector df pA) (patVector df pB))

/-! ## Token predicates and scanner lemmas -/

/-- A wellformed name token: a nonempty run of name characters. -/
def IsNameTok (n : List Char) : Prop := n ≠ [] ∧ ∀ c ∈ n, nameChar c = true

/-- A wellformed whitespace run. -/
def IsWsTok (w : List Char) : Prop := w ≠ [] ∧ ∀ c ∈ w, pySpace c = true

/-- A wellformed numeric token: an optional sign then a nonempty run of
numeric characters. -/
def IsNumTok (v : List Char) : Prop :=
  ∃ s d, (s = [] ∨ s = ['-'] ∨ s = ['+']) ∧ d ≠ [] ∧ (∀ c ∈ d, numChar c = true) ∧ v = s ++ d

/-- A wellformed value token of the hash shape: numeric, nan or inf. -/
def IsValTok (v : List Char) : Prop :=
  IsNumTok v ∨ v = ['n', 'a', 'n'] ∨ v = ['i', 'n', 'f']

lemma pySpace_cases {c : Char} (h : pySpace c = true) :
    c = ' ' ∨ c = '\t' ∨ c = '\n' ∨ c = '\r' ∨ c = Char.ofNat 11 ∨ c = Char.ofNat 12 := by
  simp [pySpace] at h
  tauto

lemma space_not_nameChar {c : Char} (h : pySpace c = true) : nameChar c = false := by
  rcases pySpace_cases h with rfl | rfl | rfl | rfl | rfl | rfl <;> decide

lemma space_not_numChar {c : Char} (h : pySpace c = true) : numChar c = false := by
  rcases pySpace_cases h with rfl | rfl | rfl | rfl | rfl | rfl <;> decide

lemma space_ne {c d : Char} (h : pySpace c = true) (hd : pySpace d = false) : c ≠ d := by
  intro e
  subst e
  rw [h] at hd
  exact Bool.noConfusion hd

lemma nameChar_not_space {c : Char} (h : nameChar c = true) : pySpace c = false := by
  cases hs : pySpace c
  · rfl
  · rw [space_not_nameChar hs] at h
    exact Bool.noConfusion h

lemma numChar_not_space {c : Char} (h : numChar c = true) : pySpace c = false := by
  cases hs : pySpace c
  · rfl
  · rw [space_not_numChar hs] at h
    exact Bool.noConfusion h

lemma numChar_ne {c : Char} (h : numChar c = true) {d : Char} (hd : numChar d = false) :
    c ≠ d := by
  intro e
  subst e
  rw [h] at hd
  exact Bool.noConfusion hd

/-- Head decomposition of a numeric token: the first character is a sign or a
numeric character, in particular not whitespace and not one of the literal
characters the regexes expect after whitespace. -/
lemma numTok_head_decomp {v : List Char} (hv : IsNumTok v) :
    ∃ c t, v = c :: t ∧ (c = '-' ∨ c = '+' ∨ numChar c = true) := by
  obtain ⟨s, d, hs, hdne, hdall, rfl⟩ := hv
  obtain ⟨c0, t0, rfl⟩ := List.exists_cons_of_ne_nil hdne
  rcases hs with rfl | rfl | rfl
  · exact ⟨c0, t0, rfl, Or.inr (Or.inr (hdall c0 (List.mem_cons_self c0 t0)))⟩
  · exact ⟨'-', c0 :: t0, rfl, Or.inl rfl⟩
  · exact ⟨'+', c0 :: t0, rfl, Or.inr (Or.inl rfl)⟩

lemma valTok_head_decomp {v : List Char} (hv : IsValTok v) :
    ∃ c t, v = c :: t ∧
      (c = '-' ∨ c = '+' ∨ numChar c = true ∨ c = 'n' ∨ c = 'i') := by
  rcases hv with hn | rfl | rfl
  · obtain ⟨c, t, rfl, hc⟩ := numTok_head_decomp hn
    exact ⟨c, t, rfl, by tauto⟩
  · exact ⟨'n', ['a', 'n'], rfl, by tauto⟩
  · exact ⟨'i', ['n', 'f'], rfl, by tauto⟩

/-- Properties of a character that can start a value token. -/
lemma valHead_props {c : Char}
    (h : c = '-' ∨ c = '+' ∨ numChar c = true ∨ c = 'n' ∨ c = 'i') :
    pySpace c = false ∧ c ≠ '#' ∧ c ≠ '(' := by
  rcases h with rfl | rfl | hc | rfl | rfl
  · exact ⟨by decide, by decide, by decide⟩
  · exact ⟨by decide, by decide, by decide⟩
  · exact ⟨numChar_not_space hc, numChar_ne hc (by decide), numChar_ne hc (by decide)⟩
  · exact ⟨by decide, by decide, by decide⟩
  · exact ⟨by decide, by decide, by decide⟩

lemma scanName_app {n : List Char} (hn : IsNameTok n) {w : Char} (hw : pySpace w = true)
    (r : List Char) : scanName (n ++ w :: r) = some (n, w :: r) := by
  obtain ⟨hne, hall⟩ := hn
  have ht : (n ++ w :: r).takeWhile nameChar = n := by
    rw [List.takeWhile_append_of_pos (by simpa using hall),
      List.takeWhile_cons_of_neg (by simp [space_not_nameChar hw])]
    simp
  have hd : (n ++ w :: r).dropWhile nameChar = w :: r := by
    rw [List.dropWhile_append_of_pos (by simpa using hall),
      List.dropWhile_cons_of_neg (by simp [space_not_nameChar hw])]
  simp [scanName, ht, hd, hne]

lemma scanWs_app {w : List Char} (hw : IsWsTok w) {d : Char} (hd : pySpace d = false)
    (r : List Char) : scanWs (w ++ d :: r) = some (d :: r) := by
  obtain ⟨hne, hall⟩ := hw
  have ht : (w ++ d :: r).takeWhile pySpace = w := by
    rw [List.takeWhile_append_of_pos (by simpa using hall),
      List.takeWhile_cons_of_neg (by simp [hd])]
    simp
  have hdr : (w ++ d :: r).dropWhile pySpace = d :: r := by
    rw [List.dropWhile_append_of_pos (by simpa using hall),
      List.dropWhile_cons_of_neg (by simp [hd])]
  simp [scanWs, ht, hdr, hne]

lemma scanNum_app {v : List Char} (hv : IsNumTok v) {b : Char} (hb : numChar b = false)
    (r : List Char) : scanNum (v ++ b :: r) = some (v, b :: r) := by
  obtain ⟨s, d, hs, hdne, hdall, rfl⟩ := hv
  obtain ⟨c0, t0, rfl⟩ := List.exists_cons_of_ne_nil hdne
  have htk : ((c0 :: t0) ++ b :: r).takeWhile numChar = c0 :: t0 := by
    rw [List.takeWhile_append_of_pos (by simpa using hdall),
      List.takeWhile_cons_of_neg (by simp [hb])]
    simp
  have hdp : ((c0 :: t0) ++ b :: r).dropWhile numChar = b :: r := by
    rw [List.dropWhile_append_of_pos (by simpa using hdall),
      List.dropWhile_cons_of_neg (by simp [hb])]
  have hc0 : numChar c0 = true := hdall c0 (List.mem_cons_self c0 t0)
  have hc0m : (c0 = '-' || c0 = '+') = false := by
    have h1 : c0 ≠ '-' := numChar_ne hc0 (by decide)
    have h2 : c0 ≠ '+' := numChar_ne hc0 (by decide)
    simp [h1, h2]
  rcases hs with rfl | rfl | rfl
  · rw [List.nil_append]
    rw [List.cons_append]
    simp only [scanNum, hc0m, Bool.false_eq_true, if_false]
    rw [← List.cons_append]
    simp [htk, hdp, List.cons_ne_nil]
    exact ⟨hc0, by simpa using htk, by simpa using hdp⟩
  · simp only [List.cons_append, List.nil_append, scanNum]
    simp [htk, hdp, List.cons_ne_nil]
    exact ⟨hc0, by simpa using htk, by simpa using hdp⟩
  · simp only [List.cons_append, List.nil_append, scanNum]
    simp [htk, hdp, List.cons_ne_nil]
    exact ⟨hc0, by simpa using htk, by simpa using hdp⟩

lemma scanValTok_app {v : List Char} (hv : IsValTok v) {b : Char} (hb : numChar b = false)
    (r : List Char) : scanValTok (v ++ b :: r) = some (v, b :: r) := by
  rcases hv with hn | rfl | rfl
  · simp [scanValTok, scanNum_app hn hb r]
  · rfl
  · rfl

lemma dropWhile_ws_app {w : List Char} (hall : ∀ c ∈ w, pySpace c = true) {b : Char}
    (hb : pySpace b = false) (r : List Char) :
    (w ++ b :: r).dropWhile pySpace = b :: r := by
  rw [List.dropWhile_append_of_pos (by simpa using hall),
    List.dropWhile_cons_of_neg (by simp [hb])]

/-! ## Matcher lemmas on wellformed lines -/

lemma matchNumHash_app {n w1 v w2 d : List Char}
    (hn : IsNameTok n) (h1 : IsWsTok w1) (hv : IsValTok v) (h2 : IsWsTok w2) :
    matchNumHash (n ++ (w1 ++ (v ++ (w2 ++ '#' :: ' ' :: d)))) = some (n, v, d) := by
  have e1 : scanName (n ++ (w1 ++ (v ++ (w2 ++ '#' :: ' ' :: d)))) =
      some (n, w1 ++ (v ++ (w2 ++ '#' :: ' ' :: d))) := by
    obtain ⟨c1, t1, rfl⟩ := List.exists_cons_of_ne_nil h1.1
    simpa using scanName_app hn (h1.2 c1 (List.mem_cons_self c1 t1)) _
  have e2 : scanWs (w1 ++ (v ++ (w2 ++ '#' :: ' ' :: d))) =
      some (v ++ (w2 ++ '#' :: ' ' :: d)) := by
    obtain ⟨cv, tv, hveq, hvh⟩ := valTok_head_decomp hv
    rw [hveq]
    simpa using scanWs_app h1 (valHead_props hvh).1 _
  have e3 : scanValTok (v ++ (w2 ++ '#' :: ' ' :: d)) = some (v, w2 ++ '#' :: ' ' :: d) := by
    obtain ⟨c2, t2, rfl⟩ := List.exists_cons_of_ne_nil h2.1
    simpa using scanValTok_app hv (space_not_numChar (h2.2 c2 (List.mem_cons_self c2 t2))) _
  have e4 : scanWs (w2 ++ '#' :: ' ' :: d) = some ('#' :: ' ' :: d) :=
    scanWs_app h2 (by decide) _
  simp [matchNumHash, e1, e2, e3, e4, expectChar]

lemma matchNumHash_noHash {n w1 v w2 : List Char} {e : Char} {r : List Char}
    (hn : IsNameTok n) (h1 : IsWsTok w1) (hv : IsValTok v) (h2 : IsWsTok w2)
    (he1 : pySpace e = false) (he2 : e ≠ '#') :
    matchNumHash (n ++ (w1 ++ (v ++ (w2 ++ e :: r)))) = none := by
  have e1 : scanName (n ++ (w1 ++ (v ++ (w2 ++ e :: r)))) =
      some (n, w1 ++ (v ++ (w2 ++ e :: r))) := by
    obtain ⟨c1, t1, rfl⟩ := List.exists_cons_of_ne_nil h1.1
    simpa using scanName_app hn (h1.2 c1 (List.mem_cons_self c1 t1)) _
  have e2 : scanWs (w1 ++ (v ++ (w2 ++ e :: r))) = some (v ++ (w2 ++ e :: r)) := by
    obtain ⟨cv, tv, hveq, hvh⟩ := valTok_head_decomp hv
    rw [hveq]
    simpa using scanWs_app h1 (valHead_props hvh).1 _
  have e3 : scanValTok (v ++ (w2 ++ e :: r)) = some (v, w2 ++ e :: r) := by
    obtain ⟨c2, t2, rfl⟩ := List.exists_cons_of_ne_nil h2.1
    simpa using scanValTok_app hv (space_not_numChar (h2.2 c2 (List.mem_cons_self c2 t2))) _
  have e4 : scanWs (w2 ++ e :: r) = some (e :: r) := scanWs_app h2 he1 _
  simp [matchNumHash, e1, e2, e3, e4, expectChar, he2]

lemma matchNumParen_app {n w1 v w2 ft : List Char}
    (hn : IsNameTok n) (h1 : IsWsTok w1) (hv : IsNumTok v) (h2 : IsWsTok w2)
    (hcl : ft.contains ')' = true) :
    matchNumParen (n ++ (w1 ++ (v ++ (w2 ++ '(' :: ft)))) = some (n, v) := by
  have e1 : scanName (n ++ (w1 ++ (v ++ (w2 ++ '(' :: ft)))) =
      some (n, w1 ++ (v ++ (w2 ++ '(' :: ft))) := by
    obtain ⟨c1, t1, rfl⟩ := List.exists_cons_of_ne_nil h1.1
    simpa using scanName_app hn (h1.2 c1 (List.mem_cons_self c1 t1)) _
  have e2 : scanWs (w1 ++ (v ++ (w2 ++ '(' :: ft))) = some (v ++ (w2 ++ '(' :: ft)) := by
    obtain ⟨cv, tv, hveq, hvh⟩ := numTok_head_decomp hv
    rw [hveq]
    simpa using scanWs_app h1 (valHead_props (by tauto)).1 _
  have e3 : scanNum (v ++ (w2 ++ '(' :: ft)) = some (v, w2 ++ '(' :: ft) := by
    obtain ⟨c2, t2, rfl⟩ := List.exists_cons_of_ne_nil h2.1
    simpa using scanNum_app hv (space_not_numChar (h2.2 c2 (List.mem_cons_self c2 t2))) _
  have e4 : scanWs (w2 ++ '(' :: ft) = some ('(' :: ft) := scanWs_app h2 (by decide) _
  simp [matchNumParen, e1, e2, e3, e4, expectChar, hcl]
  simpa using hcl

lemma matchNumParen_noParen {n w1 v w2 : List Char} {e : Char} {r : List Char}
    (hn : IsNameTok n) (h1 : IsWsTok w1) (hv : IsNumTok v) (h2 : IsWsTok w2)
    (he1 : pySpace e = false) (he2 : e ≠ '(') :
    matchNumParen (n ++ (w1 ++ (v ++ (w2 ++ e :: r)))) = none := by
  have e1 : scanName (n ++ (w1 ++ (v ++ (w2 ++ e :: r)))) =
      some (n, w1 ++ (v ++ (w2 ++ e :: r))) := by
    obtain ⟨c1, t1, rfl⟩ := List.exists_cons_of_ne_nil h1.1
    simpa using scanName_app hn (h1.2 c1 (List.mem_cons_self c1 t1)) _
  have e2 : scanWs (w1 ++ (v ++ (w2 ++ e :: r))) = some (v ++ (w2 ++ e :: r)) := by
    obtain ⟨cv, tv, hveq, hvh⟩ := numTok_head_decomp hv
    rw [hveq]
    simpa using scanWs_app h1 (valHead_props (by tauto)).1 _
  have e3 : scanNum (v ++ (w2 ++ e :: r)) = some (v, w2 ++ e :: r) := by
    obtain ⟨c2, t2, rfl⟩ := List.exists_cons_of_ne_nil h2.1
    simpa using scanNum_app hv (space_not_numChar (h2.2 c2 (List.mem_cons_self c2 t2))) _
  have e4 : scanWs (w2 ++ e :: r) = some (e :: r) := scanWs_app h2 he1 _
  simp [matchNumParen, e1, e2, e3, e4, expectChar, he2]

lemma matchThreeHash_noNum {n w1 v w2 : List Char} {e : Char} {r : List Char}
    (hn : IsNameTok n) (h1 : IsWsTok w1) (hv : IsNumTok v) (h2 : IsWsTok w2)
    (he1 : pySpace e = false) (he2 : (e = '-' ∨ e = '+' ∨ numChar e = true) → False) :
    matchThreeHash (n ++ (w1 ++ (v ++ (w2 ++ e :: r)))) = none := by
  have e1 : scanName (n ++ (w1 ++ (v ++ (w2 ++ e :: r)))) =
      some (n, w1 ++ (v ++ (w2 ++ e :: r))) := by
    obtain ⟨c1, t1, rfl⟩ := List.exists_cons_of_ne_nil h1.1
    simpa using scanName_app hn (h1.2 c1 (List.mem_cons_self c1 t1)) _
  have e2 : scanWs (w1 ++ (v ++ (w2 ++ e :: r))) = some (v ++ (w2 ++ e :: r)) := by
    obtain ⟨cv, tv, hveq, hvh⟩ := numTok_head_decomp hv
    rw [hveq]
    simpa using scanWs_app h1 (valHead_props (by tauto)).1 _
  have e3 : scanNum (v ++ (w2 ++ e :: r)) = some (v, w2 ++ e :: r) := by
    obtain ⟨c2, t2, rfl⟩ := List.exists_cons_of_ne_nil h2.1
    simpa using scanNum_app hv (space_not_numChar (h2.2 c2 (List.mem_cons_self c2 t2))) _
  have e4 : scanWs (w2 ++ e :: r) = some (e :: r) := scanWs_app h2 he1 _
  have e5 : scanNum (e :: r) = none := by
    have hm : (e = '-' || e = '+') = false := by
      have a1 : e ≠ '-' := fun x => he2 (Or.inl x)
      have a2 : e ≠ '+' := fun x => he2 (Or.inr (Or.inl x))
      simp [a1, a2]
    have hnc : numChar e = false := by
      cases hc : numChar e
      · rfl
      · exact absurd (Or.inr (Or.inr hc)) he2
    simp [scanNum, hm, hnc]
  simp [matchThreeHash, e1, e2, e3, e4, e5]

lemma matchThreeHash_gen {n w1 v w2 p w3 cu : List Char} (rest : List Char)
    (hn : IsNameTok n) (h1 : IsWsTok w1) (hv : IsNumTok v) (h2 : IsWsTok w2)
    (hp : IsNumTok p) (h3 : IsWsTok w3) (hcu : IsNumTok cu) :
    matchThreeHash (n ++ (w1 ++ (v ++ (w2 ++ (p ++ '%' :: (w3 ++ (cu ++ '%' :: rest))))))) =
      match expectChar '#' (rest.dropWhile pySpace) with
      | none => none
      | some r11 =>
        match expectChar ' ' r11 with
        | none => none
        | some r12 => some (n, v, p, cu, r12) := by
  have e1 : scanName (n ++ (w1 ++ (v ++ (w2 ++ (p ++ '%' :: (w3 ++ (cu ++ '%' :: rest))))))) =
      some (n, w1 ++ (v ++ (w2 ++ (p ++ '%' :: (w3 ++ (cu ++ '%' :: rest)))))) := by
    obtain ⟨c1, t1, rfl⟩ := List.exists_cons_of_ne_nil h1.1
    simpa using scanName_app hn (h1.2 c1 (List.mem_cons_self c1 t1)) _
  have e2 : scanWs (w1 ++ (v ++ (w2 ++ (p ++ '%' :: (w3 ++ (cu ++ '%' :: rest)))))) =
      some (v ++ (w2 ++ (p ++ '%' :: (w3 ++ (cu ++ '%' :: rest))))) := by
    obtain ⟨cv, tv, hveq, hvh⟩ := numTok_head_decomp hv
    rw [hveq]
    simpa using scanWs_app h1 (valHead_props (by tauto)).1 _
  have e3 : scanNum (v ++ (w2 ++ (p ++ '%' :: (w3 ++ (cu ++ '%' :: rest))))) =
      some (v, w2 ++ (p ++ '%' :: (w3 ++ (cu ++ '%' :: rest)))) := by
    obtain ⟨c2, t2, rfl⟩ := List.exists_cons_of_ne_nil h2.1
    simpa using scanNum_app hv (space_not_numChar (h2.2 c2 (List.mem_cons_self c2 t2))) _
  have e4 : scanWs (w2 ++ (p ++ '%' :: (w3 ++ (cu ++ '%' :: rest)))) =
      some (p ++ '%' :: (w3 ++ (cu ++ '%' :: rest))) := by
    obtain ⟨cp, tp, hpeq, hph⟩ := numTok_head_decomp hp
    rw [hpeq]
    simpa using scanWs_app h2 (valHead_props (by tauto)).1 _
  have e5 : scanNum (p ++ '%' :: (w3 ++ (cu ++ '%' :: rest))) =
      some (p, '%' :: (w3 ++ (cu ++ '%' :: rest))) := scanNum_app hp (by decide) _
  have e7 : scanWs (w3 ++ (cu ++ '%' :: rest)) = some (cu ++ '%' :: rest) := by
    obtain ⟨cc, tc, hceq, hch⟩ := numTok_head_decomp hcu
    rw [hceq]
    simpa using scanWs_app h3 (valHead_props (by tauto)).1 _
  have e8 : scanNum (cu ++ '%' :: rest) = some (cu, '%' :: rest) := scanNum_app hcu (by decide) _
  simp [matchThreeHash, e1, e2, e3, e4, e5, e7, e8, expectChar]

lemma matchThreeHash_app {n w1 v w2 p w3 cu w4 d : List Char}
    (hn : IsNameTok n) (h1 : IsWsTok w1) (hv : IsNumTok v) (h2 : IsWsTok w2)
    (hp : IsNumTok p) (h3 : IsWsTok w3) (hcu : IsNumTok cu)
    (h4 : ∀ c ∈ w4, pySpace c = true) :
    matchThreeHash
        (n ++ (w1 ++ (v ++ (w2 ++ (p ++ '%' :: (w3 ++ (cu ++ '%' :: (w4 ++ '#' :: ' ' :: d)))))))) =
      some (n, v, p, cu, d) := by
  rw [matchThreeHash_gen (w4 ++ '#' :: ' ' :: d) hn h1 hv h2 hp h3 hcu]
  rw [dropWhile_ws_app h4 (by decide)]
  simp [expectChar]

lemma matchThreeHash_noParen {n w1 v w2 p w3 cu w4 ft : List Char}
    (hn : IsNameTok n) (h1 : IsWsTok w1) (hv : IsNumTok v) (h2 : IsWsTok w2)
    (hp : IsNumTok p) (h3 : IsWsTok w3) (hcu : IsNumTok cu)
    (h4 : ∀ c ∈ w4, pySpace c = true) :
    matchThreeHash
        (n ++ (w1 ++ (v ++ (w2 ++ (p ++ '%' :: (w3 ++ (cu ++ '%' :: (w4 ++ '(' :: ft)))))))) =
      none := by
  rw [matchThreeHash_gen (w4 ++ '(' :: ft) hn h1 hv h2 hp h3 hcu]
  rw [dropWhile_ws_app h4 (by decide)]
  simp [expectChar]

lemma matchThreeParen_gen {n w1 v w2 p w3 cu : List Char} (rest : List Char)
    (hn : IsNameTok n) (h1 : IsWsTok w1) (hv : IsNumTok v) (h2 : IsWsTok w2)
    (hp : IsNumTok p) (h3 : IsWsTok w3) (hcu : IsNumTok cu) :
    matchThreeParen (n ++ (w1 ++ (v ++ (w2 ++ (p ++ '%' :: (w3 ++ (cu ++ '%' :: rest))))))) =
      match scanWs rest with
      | none => none
      | some r10 =>
        match expectChar '(' r10 with
        | none => none
        | some r11 => if r11.contains ')' then some (n, v, p, cu) else none := by
  have e1 : scanName (n ++ (w1 ++ (v ++ (w2 ++ (p ++ '%' :: (w3 ++ (cu ++ '%' :: rest))))))) =
      some (n, w1 ++ (v ++ (w2 ++ (p ++ '%' :: (w3 ++ (cu ++ '%' :: rest)))))) := by
    obtain ⟨c1, t1, rfl⟩ := List.exists_cons_of_ne_nil h1.1
    simpa using scanName_app hn (h1.2 c1 (List.mem_cons_self c1 t1)) _
  have e2 : scanWs (w1 ++ (v ++ (w2 ++ (p ++ '%' :: (w3 ++ (cu ++ '%' :: rest)))))) =
      some (v ++ (w2 ++ (p ++ '%' :: (w3 ++ (cu ++ '%' :: rest))))) := by
    obtain ⟨cv, tv, hveq, hvh⟩ := numTok_head_decomp hv
    rw [hveq]
    simpa using scanWs_app h1 (valHead_props (by tauto)).1 _
  have e3 : scanNum (v ++ (w2 ++ (p ++ '%' :: (w3 ++ (cu ++ '%' :: rest))))) =
      some (v, w2 ++ (p ++ '%' :: (w3 ++ (cu ++ '%' :: rest)))) := by
    obtain ⟨c2, t2, rfl⟩ := List.exists_cons_of_ne_nil h2.1
    simpa using scanNum_app hv (space_not_numChar (h2.2 c2 (List.mem_cons_self c2 t2))) _
  have e4 : scanWs (w2 ++ (p ++ '%' :: (w3 ++ (cu ++ '%' :: rest)))) =
      some (p ++ '%' :: (w3 ++ (cu ++ '%' :: rest))) := by
    obtain ⟨cp, tp, hpeq, hph⟩ := numTok_head_decomp hp
    rw [hpeq]
    simpa using scanWs_app h2 (valHead_props (by tauto)).1 _
  have e5 : scanNum (p ++ '%' :: (w3 ++ (cu ++ '%' :: rest))) =
      some (p, '%' :: (w3 ++ (cu ++ '%' :: rest))) := scanNum_app hp (by decide) _
  have e7 : scanWs (w3 ++ (cu ++ '%' :: rest)) = some (cu ++ '%' :: rest) := by
    obtain ⟨cc, tc, hceq, hch⟩ := numTok_head_decomp hcu
    rw [hceq]
    simpa using scanWs_app h3 (valHead_props (by tauto)).1 _
  have e8 : scanNum (cu ++ '%' :: rest) = some (cu, '%' :: rest) := scanNum_app hcu (by decide) _
  simp [matchThreeParen, e1, e2, e3, e4, e5, e7, e8, expectChar]

lemma matchThreeParen_app {n w1 v w2 p w3 cu w4 ft : List Char}
    (hn : IsNameTok n) (h1 : IsWsTok w1) (hv : IsNumTok v) (h2 : IsWsTok w2)
    (hp : IsNumTok p) (h3 : IsWsTok w3) (hcu : IsNumTok cu) (h4 : IsWsTok w4)
    (hcl : ft.contains ')' = true) :
    matchThreeParen
        (n ++ (w1 ++ (v ++ (w2 ++ (p ++ '%' :: (w3 ++ (cu ++ '%' :: (w4 ++ '(' :: ft)))))))) =
      some (n, v, p, cu) := by
  rw [matchThreeParen_gen (w4 ++ '(' :: ft) hn h1 hv h2 hp h3 hcu]
  rw [scanWs_app h4 (by decide)]
  simp [expectChar, hcl]
  simpa using hcl

/-! ## Classifier behaviour on wellformed lines of each shape -/

lemma orig_line_hash2 {n w1 v w2 d : List Char} {val : SVal}
    (hn : IsNameTok n) (h1 : IsWsTok w1) (hv : IsValTok v) (h2 : IsWsTok w2)
    (hst : pyStrip (n ++ (w1 ++ (v ++ (w2 ++ '#' :: ' ' :: d)))) =
      n ++ (w1 ++ (v ++ (w2 ++ '#' :: ' ' :: d))))
    (hpipe : (n ++ (w1 ++ (v ++ (w2 ++ '#' :: ' ' :: d)))).contains '|' = false)
    (hval : parse_value_orig v = .ok val) :
    parse_line_orig (n ++ (w1 ++ (v ++ (w2 ++ '#' :: ' ' :: d)))) =
      .ok ⟨String.mk n, val, none, none, String.mk d⟩ := by
  simp at hpipe
  simp [parse_line_orig, hst, hpipe, matchNumHash_app hn h1 hv h2, hval, Except.map]

lemma orig_line_hash3 {n w1 v w2 p w3 cu w4 d : List Char} {val pval cval : SVal}
    (hn : IsNameTok n) (h1 : IsWsTok w1) (hv : IsNumTok v) (h2 : IsWsTok w2)
    (hp : IsNumTok p) (h3 : IsWsTok w3) (hcu : IsNumTok cu)
    (h4 : ∀ c ∈ w4, pySpace c = true)
    (hst : pyStrip
        (n ++ (w1 ++ (v ++ (w2 ++ (p ++ '%' :: (w3 ++ (cu ++ '%' :: (w4 ++ '#' :: ' ' :: d)))))))) =
      n ++ (w1 ++ (v ++ (w2 ++ (p ++ '%' :: (w3 ++ (cu ++ '%' :: (w4 ++ '#' :: ' ' :: d))))))))
    (hpipe :
      (n ++ (w1 ++ (v ++ (w2 ++ (p ++ '%' :: (w3 ++ (cu ++ '%' :: (w4 ++ '#' :: ' ' :: d)))))))).contains '|'
        = false)
    (hval : parse_value_orig v = .ok val) (hpval : parse_value_orig p = .ok pval)
    (hcval : parse_value_orig cu = .ok cval) :
    parse_line_orig
        (n ++ (w1 ++ (v ++ (w2 ++ (p ++ '%' :: (w3 ++ (cu ++ '%' :: (w4 ++ '#' :: ' ' :: d)))))))) =
      .ok ⟨String.mk n, val, some pval, some cval, String.mk d⟩ := by
  have hb2 : matchNumHash
      (n ++ (w1 ++ (v ++ (w2 ++ (p ++ '%' :: (w3 ++ (cu ++ '%' :: (w4 ++ '#' :: ' ' :: d)))))))) =
      none := by
    obtain ⟨cp, tp, hpeq, hph⟩ := numTok_head_decomp hp
    rw [hpeq]
    have hprops := valHead_props (show cp = '-' ∨ cp = '+' ∨ numChar cp = true ∨
      cp = 'n' ∨ cp = 'i' by tauto)
    simpa using matchNumHash_noHash hn h1 (Or.inl hv) h2 hprops.1 hprops.2.1
  simp at hpipe
  simp [parse_line_orig, hst, hpipe, hb2,
    matchThreeHash_app hn h1 hv h2 hp h3 hcu h4, hval, hpval, hcval, Except.map]

lemma orig_line_paren2 {n w1 v w2 ft : List Char} {val : SVal}
    (hn : IsNameTok n) (h1 : IsWsTok w1) (hv : IsNumTok v) (h2 : IsWsTok w2)
    (hcl : ft.contains ')' = true)
    (hst : pyStrip (n ++ (w1 ++ (v ++ (w2 ++ '(' :: ft)))) =
      n ++ (w1 ++ (v ++ (w2 ++ '(' :: ft))))
    (hpipe : (n ++ (w1 ++ (v ++ (w2 ++ '(' :: ft)))).contains '|' = false)
    (hval : parse_value_orig v = .ok val) :
    parse_line_orig (n ++ (w1 ++ (v ++ (w2 ++ '(' :: ft)))) =
      .ok ⟨String.mk n, val, none, none, "(Unspecified)"⟩ := by
  have hb2 : matchNumHash (n ++ (w1 ++ (v ++ (w2 ++ '(' :: ft)))) = none :=
    matchNumHash_noHash hn h1 (Or.inl hv) h2 (by decide) (by decide)
  have hb3 : matchThreeHash (n ++ (w1 ++ (v ++ (w2 ++ '(' :: ft)))) = none :=
    matchThreeHash_noNum hn h1 hv h2 (by decide) (by decide)
  simp at hpipe
  simp [parse_line_orig, hst, hpipe, hb2, hb3,
    matchNumParen_app hn h1 hv h2 hcl, hval, Except.map]

lemma orig_line_paren3 {n w1 v w2 p w3 cu w4 ft : List Char} {val pval cval : SVal}
    (hn : IsNameTok n) (h1 : IsWsTok w1) (hv : IsNumTok v) (h2 : IsWsTok w2)
    (hp : IsNumTok p) (h3 : IsWsTok w3) (hcu : IsNumTok cu) (h4 : IsWsTok w4)
    (hcl : ft.contains ')' = true)
    (hst : pyStrip
        (n ++ (w1 ++ (v ++ (w2 ++ (p ++ '%' :: (w3 ++ (cu ++ '%' :: (w4 ++ '(' :: ft)))))))) =
      n ++ (w1 ++ (v ++ (w2 ++ (p ++ '%' :: (w3 ++ (cu ++ '%' :: (w4 ++ '(' :: ft))))))))
    (hpipe :
      (n ++ (w1 ++ (v ++ (w2 ++ (p ++ '%' :: (w3 ++ (cu ++ '%' :: (w4 ++ '(' :: ft)))))))).contains '|'
        = false)
    (hval : parse_value_orig v = .ok val) (hpval : parse_value_orig p = .ok pval)
    (hcval : parse_value_orig cu = .ok cval) :
    parse_line_orig
        (n ++ (w1 ++ (v ++ (w2 ++ (p ++ '%' :: (w3 ++ (cu ++ '%' :: (w4 ++ '(' :: ft)))))))) =
      .ok ⟨String.mk n, val, some pval, some cval, "(Unspecified)"⟩ := by
  have hb2 : matchNumHash
      (n ++ (w1 ++ (v ++ (w2 ++ (p ++ '%' :: (w3 ++ (cu ++ '%' :: (w4 ++ '(' :: ft)))))))) =
      none := by
    obtain ⟨cp, tp, hpeq, hph⟩ := numTok_head_decomp hp
    rw [hpeq]
    have hprops := valHead_props (show cp = '-' ∨ cp = '+' ∨ numChar cp = true ∨
      cp = 'n' ∨ cp = 'i' by tauto)
    simpa using matchNumHash_noHash hn h1 (Or.inl hv) h2 hprops.1 hprops.2.1
  have hb3 : matchThreeHash
      (n ++ (w1 ++ (v ++ (w2 ++ (p ++ '%' :: (w3 ++ (cu ++ '%' :: (w4 ++ '(' :: ft)))))))) =
      none := matchThreeHash_noParen hn h1 hv h2 hp h3 hcu h4.2
  have hb4 : matchNumParen
      (n ++ (w1 ++ (v ++ (w2 ++ (p ++ '%' :: (w3 ++ (cu ++ '%' :: (w4 ++ '(' :: ft)))))))) =
      none := by
    obtain ⟨cp, tp, hpeq, hph⟩ := numTok_head_decomp hp
    rw [hpeq]
    have hprops := valHead_props (show cp = '-' ∨ cp = '+' ∨ numChar cp = true ∨
      cp = 'n' ∨ cp = 'i' by tauto)
    simpa using matchNumParen_noParen hn h1 hv h2 hprops.1 hprops.2.2
  simp at hpipe
  simp [parse_line_orig, hst, hpipe, hb2, hb3, hb4,
    matchThreeParen_app hn h1 hv h2 hp h3 hcu h4 hcl, hval, hpval, hcval, Except.map]

lemma orig_line_divider {l : List Char} (hst : pyStrip l = l)
    (hpipe : l.contains '|' = true) :
    (parse_line_orig l).map (fun st => (st.name, st.value)) =
      .ok (String.mk (firstToken l), .pnone) := by
  simp at hpipe
  simp [parse_line_orig, hst, hpipe, Except.map]

lemma gem5_line_hash2 {n w1 v w2 d : List Char} {val : SVal}
    (hn : IsNameTok n) (h1 : IsWsTok w1) (hv : IsValTok v) (h2 : IsWsTok w2)
    (hst : pyStrip (n ++ (w1 ++ (v ++ (w2 ++ '#' :: ' ' :: d)))) =
      n ++ (w1 ++ (v ++ (w2 ++ '#' :: ' ' :: d))))
    (hpipe : (n ++ (w1 ++ (v ++ (w2 ++ '#' :: ' ' :: d)))).contains '|' = false)
    (hval : parse_value_gem v = .ok val) :
    parse_line (n ++ (w1 ++ (v ++ (w2 ++ '#' :: ' ' :: d)))) = .ok ⟨String.mk n, val⟩ := by
  simp at hpipe
  simp [parse_line, hst, hpipe, matchNumHash_app hn h1 hv h2, hval, Except.map]

lemma gem5_line_paren2 {n w1 v w2 ft : List Char} {val : SVal}
    (hn : IsNameTok n) (h1 : IsWsTok w1) (hv : IsNumTok v) (h2 : IsWsTok w2)
    (hcl : ft.contains ')' = true)
    (hst : pyStrip (n ++ (w1 ++ (v ++ (w2 ++ '(' :: ft)))) =
      n ++ (w1 ++ (v ++ (w2 ++ '(' :: ft))))
    (hpipe : (n ++ (w1 ++ (v ++ (w2 ++ '(' :: ft)))).contains '|' = false)
    (hval : parse_value_gem v = .ok val) :
    parse_line (n ++ (w1 ++ (v ++ (w2 ++ '(' :: ft)))) = .ok ⟨String.mk n, val⟩ := by
  have hb2 : matchNumHash (n ++ (w1 ++ (v ++ (w2 ++ '(' :: ft)))) = none :=
    matchNumHash_noHash hn h1 (Or.inl hv) h2 (by decide) (by decide)
  simp at hpipe
  simp [parse_line, hst, hpipe, hb2, matchNumParen_app hn h1 hv h2 hcl, hval, Except.map]

lemma gem5_line_divider {l : List Char} (hst : pyStrip l = l)
    (hpipe : l.contains '|' = true) :
    parse_line l = .ok ⟨String.mk (firstToken l), .pnone⟩ := by
  simp at hpipe
  simp [parse_line, hst, hpipe]

lemma gem5_line_rejects_hash3 {n w1 v w2 p w3 cu w4 d : List Char}
    (hn : IsNameTok n) (h1 : IsWsTok w1) (hv : IsNumTok v) (h2 : IsWsTok w2)
    (hp : IsNumTok p) (h3 : IsWsTok w3) (hcu : IsNumTok cu)
    (h4 : ∀ c ∈ w4, pySpace c = true)
    (hst : pyStrip
        (n ++ (w1 ++ (v ++ (w2 ++ (p ++ '%' :: (w3 ++ (cu ++ '%' :: (w4 ++ '#' :: ' ' :: d)))))))) =
      n ++ (w1 ++ (v ++ (w2 ++ (p ++ '%' :: (w3 ++ (cu ++ '%' :: (w4 ++ '#' :: ' ' :: d))))))))
    (hpipe :
      (n ++ (w1 ++ (v ++ (w2 ++ (p ++ '%' :: (w3 ++ (cu ++ '%' :: (w4 ++ '#' :: ' ' :: d)))))))).contains '|'
        = false) :
    parse_line
        (n ++ (w1 ++ (v ++ (w2 ++ (p ++ '%' :: (w3 ++ (cu ++ '%' :: (w4 ++ '#' :: ' ' :: d)))))))) =
      .error () := by
  have hb2 : matchNumHash
      (n ++ (w1 ++ (v ++ (w2 ++ (p ++ '%' :: (w3 ++ (cu ++ '%' :: (w4 ++ '#' :: ' ' :: d)))))))) =
      none := by
    obtain ⟨cp, tp, hpeq, hph⟩ := numTok_head_decomp hp
    rw [hpeq]
    have hprops := valHead_props (show cp = '-' ∨ cp = '+' ∨ numChar cp = true ∨
      cp = 'n' ∨ cp = 'i' by tauto)
    simpa using matchNumHash_noHash hn h1 (Or.inl hv) h2 hprops.1 hprops.2.1
  have hb4 : matchNumParen
      (n ++ (w1 ++ (v ++ (w2 ++ (p ++ '%' :: (w3 ++ (cu ++ '%' :: (w4 ++ '#' :: ' ' :: d)))))))) =
      none := by
    obtain ⟨cp, tp, hpeq, hph⟩ := numTok_head_decomp hp
    rw [hpeq]
    have hprops := valHead_props (show cp = '-' ∨ cp = '+' ∨ numChar cp = true ∨
      cp = 'n' ∨ cp = 'i' by tauto)
    simpa using matchNumParen_noParen hn h1 hv h2 hprops.1 hprops.2.2
  simp at hpipe
  simp [parse_line, hst, hpipe, hb2, hb4]

lemma gem5_line_rejects_paren3 {n w1 v w2 p w3 cu w4 ft : List Char}
    (hn : IsNameTok n) (h1 : IsWsTok w1) (hv : IsNumTok v) (h2 : IsWsTok w2)
    (hp : IsNumTok p) (h3 : IsWsTok w3) (hcu : IsNumTok cu)
    (hst : pyStrip
        (n ++ (w1 ++ (v ++ (w2 ++ (p ++ '%' :: (w3 ++ (cu ++ '%' :: (w4 ++ '(' :: ft)))))))) =
      n ++ (w1 ++ (v ++ (w2 ++ (p ++ '%' :: (w3 ++ (cu ++ '%' :: (w4 ++ '(' :: ft))))))))
    (hpipe :
      (n ++ (w1 ++ (v ++ (w2 ++ (p ++ '%' :: (w3 ++ (cu ++ '%' :: (w4 ++ '(' :: ft)))))))).contains '|'
        = false) :
    parse_line
        (n ++ (w1 ++ (v ++ (w2 ++ (p ++ '%' :: (w3 ++ (cu ++ '%' :: (w4 ++ '(' :: ft)))))))) =
      .error () := by
  have hb2 : matchNumHash
      (n ++ (w1 ++ (v ++ (w2 ++ (p ++ '%' :: (w3 ++ (cu ++ '%' :: (w4 ++ '(' :: ft)))))))) =
      none := by
    obtain ⟨cp, tp, hpeq, hph⟩ := numTok_head_decomp hp
    rw [hpeq]
    have hprops := valHead_props (show cp = '-' ∨ cp = '+' ∨ numChar cp = true ∨
      cp = 'n' ∨ cp = 'i' by tauto)
    simpa using matchNumHash_noHash hn h1 (Or.inl hv) h2 hprops.1 hprops.2.1
  have hb4 : matchNumParen
      (n ++ (w1 ++ (v ++ (w2 ++ (p ++ '%' :: (w3 ++ (cu ++ '%' :: (w4 ++ '(' :: ft)))))))) =
      none := by
    obtain ⟨cp, tp, hpeq, hph⟩ := numTok_head_decomp hp
    rw [hpeq]
    have hprops := valHead_props (show cp = '-' ∨ cp = '+' ∨ numChar cp = true ∨
      cp = 'n' ∨ cp = 'i' by tauto)
    simpa using matchNumParen_noParen hn h1 hv h2 hprops.1 hprops.2.2
  simp at hpipe
  simp [parse_line, hst, hpipe, hb2, hb4]

/-! ## Claim C1 -/

/-- C1, counterexample: the pipeline classifier Gem5Stat.parse_line in
src/utils/gem5_parser.py rejects the wellformed three-number hash line
`x 2 12.5% 50.5% # hits` with a ValueError, while the classifier of
src/scripts/original_stats.py accepts it with name x and value 2; the claim
that the Line Classifier recognizes all five shapes and in particular
classifies three-number hash lines is therefore false for the cited
parse_line. -/
theorem c1_counterexample :
    parse_line "x 2 12.5% 50.5% # hits".data = .error () ∧
    (parse_line_orig "x 2 12.5% 50.5% # hits".data).map (fun st => (st.name, st.value)) =
      .ok ("x", .pint 2) := by
  constructor
  · decide
  · decide

/-- C1, amended claim: the original_stats classifier recognizes all five
shapes and extracts the name and numeric value exactly for every wellformed
line whose value tokens its parse_value accepts, while the pipeline
classifier gem5_parser.Gem5Stat.parse_line recognizes only the divider,
two-number hash and two-number parenthetical shapes and rejects every
wellformed three-number line (hash or parenthetical) with a ValueError.
The ten conjuncts cover, in order: the original classifier on shapes two,
three, four, five and the divider; the pipeline classifier on shapes two,
four and the divider; and the pipeline classifier rejecting shapes three
and five. -/
theorem c1_amended :
    (∀ n w1 v w2 d : List Char, ∀ val : SVal,
      IsNameTok n → IsWsTok w1 → IsValTok v → IsWsTok w2 →
      pyStrip (n ++ (w1 ++ (v ++ (w2 ++ '#' :: ' ' :: d)))) =
        n ++ (w1 ++ (v ++ (w2 ++ '#' :: ' ' :: d))) →
      (n ++ (w1 ++ (v ++ (w2 ++ '#' :: ' ' :: d)))).contains '|' = false →
      parse_value_orig v = .ok val →
      parse_line_orig (n ++ (w1 ++ (v ++ (w2 ++ '#' :: ' ' :: d)))) =
        .ok ⟨String.mk n, val, none, none, String.mk d⟩) ∧
    (∀ n w1 v w2 p w3 cu w4 d : List Char, ∀ val pval cval : SVal,
      IsNameTok n → IsWsTok w1 → IsNumTok v → IsWsTok w2 →
      IsNumTok p → IsWsTok w3 → IsNumTok cu → (∀ c ∈ w4, pySpace c = true) →
      pyStrip
          (n ++ (w1 ++ (v ++ (w2 ++ (p ++ '%' :: (w3 ++ (cu ++ '%' :: (w4 ++ '#' :: ' ' :: d)))))))) =
        n ++ (w1 ++ (v ++ (w2 ++ (p ++ '%' :: (w3 ++ (cu ++ '%' :: (w4 ++ '#' :: ' ' :: d))))))) →
      (n ++ (w1 ++ (v ++ (w2 ++ (p ++ '%' :: (w3 ++ (cu ++ '%' :: (w4 ++ '#' :: ' ' :: d)))))))).contains '|'
          = false →
      parse_value_orig v = .ok val → parse_value_orig p = .ok pval →
      parse_value_orig cu = .ok cval →
      parse_line_orig
          (n ++ (w1 ++ (v ++ (w2 ++ (p ++ '%' :: (w3 ++ (cu ++ '%' :: (w4 ++ '#' :: ' ' :: d)))))))) =
        .ok ⟨String.mk n, val, some pval, some cval, String.mk d⟩) ∧
    (∀ n w1 v w2 ft : List Char, ∀ val : SVal,
      IsNameTok n → IsWsTok w1 → IsNumTok v → IsWsTok w2 → ft.contains ')' = true →
      pyStrip (n ++ (w1 ++ (v ++ (w2 ++ '(' :: ft)))) =
        n ++ (w1 ++ (v ++ (w2 ++ '(' :: ft))) →
      (n ++ (w1 ++ (v ++ (w2 ++ '(' :: ft)))).contains '|' = false →
      parse_value_orig v = .ok val →
      parse_line_orig (n ++ (w1 ++ (v ++ (w2 ++ '(' :: ft)))) =
        .ok ⟨String.mk n, val, none, none, "(Unspecified)"⟩) ∧
    (∀ n w1 v w2 p w3 cu w4 ft : List Char, ∀ val pval cval : SVal,
      IsNameTok n → IsWsTok w1 → IsNumTok v → IsWsTok w2 →
      IsNumTok p → IsWsTok w3 → IsNumTok cu → IsWsTok w4 → ft.contains ')' = true →
      pyStrip
          (n ++ (w1 ++ (v ++ (w2 ++ (p ++ '%' :: (w3 ++ (cu ++ '%' :: (w4 ++ '(' :: ft)))))))) =
        n ++ (w1 ++ (v ++ (w2 ++ (p ++ '%' :: (w3 ++ (cu ++ '%' :: (w4 ++ '(' :: ft))))))) →
      (n ++ (w1 ++ (v ++ (w2 ++ (p ++ '%' :: (w3 ++ (cu ++ '%' :: (w4 ++ '(' :: ft)))))))).contains '|'
          = false →
      parse_value_orig v = .ok val → parse_value_orig p = .ok pval →
      parse_value_orig cu = .ok cval →
      parse_line_orig
          (n ++ (w1 ++ (v ++ (w2 ++ (p ++ '%' :: (w3 ++ (cu ++ '%' :: (w4 ++ '(' :: ft)))))))) =
        .ok ⟨String.mk n, val, some pval, some cval, "(Unspecified)"⟩) ∧
    (∀ l : List Char, pyStrip l = l → l.contains '|' = true →
      (parse_line_orig l).map (fun st => (st.name, st.value)) =
        .ok (String.mk (firstToken l), .pnone)) ∧
    (∀ n w1 v w2 d : List Char, ∀ val : SVal,
      IsNameTok n → IsWsTok w1 → IsValTok v → IsWsTok w2 →
      pyStrip (n ++ (w1 ++ (v ++ (w2 ++ '#' :: ' ' :: d)))) =
        n ++ (w1 ++ (v ++ (w2 ++ '#' :: ' ' :: d))) →
      (n ++ (w1 ++ (v ++ (w2 ++ '#' :: ' ' :: d)))).contains '|' = false →
      parse_value_gem v = .ok val →
      parse_line (n ++ (w1 ++ (v ++ (w2 ++ '#' :: ' ' :: d)))) = .ok ⟨String.mk n, val⟩) ∧
    (∀ n w1 v w2 ft : List Char, ∀ val : SVal,
      IsNameTok n → IsWsTok w1 → IsNumTok v → IsWsTok w2 → ft.contains ')' = true →
      pyStrip (n ++ (w1 ++ (v ++ (w2 ++ '(' :: ft)))) =
        n ++ (w1 ++ (v ++ (w2 ++ '(' :: ft))) →
      (n ++ (w1 ++ (v ++ (w2 ++ '(' :: ft)))).contains '|' = false →
      parse_value_gem v = .ok val →
      parse_line (n ++ (w1 ++ (v ++ (w2 ++ '(' :: ft)))) = .ok ⟨String.mk n, val⟩) ∧
    (∀ l : List Char, pyStrip l = l → l.contains '|' = true →
      parse_line l = .ok ⟨String.mk (firstToken l), .pnone⟩) ∧
    (∀ n w1 v w2 p w3 cu w4 d : List Char,
      IsNameTok n → IsWsTok w1 → IsNumTok v → IsWsTok w2 →
      IsNumTok p → IsWsTok w3 → IsNumTok cu → (∀ c ∈ w4, pySpace c = true) →
      pyStrip
          (n ++ (w1 ++ (v ++ (w2 ++ (p ++ '%' :: (w3 ++ (cu ++ '%' :: (w4 ++ '#' :: ' ' :: d)))))))) =
        n ++ (w1 ++ (v ++ (w2 ++ (p ++ '%' :: (w3 ++ (cu ++ '%' :: (w4 ++ '#' :: ' ' :: d))))))) →
      (n ++ (w1 ++ (v ++ (w2 ++ (p ++ '%' :: (w3 ++ (cu ++ '%' :: (w4 ++ '#' :: ' ' :: d)))))))).contains '|'
          = false →
      parse_line
          (n ++ (w1 ++ (v ++ (w2 ++ (p ++ '%' :: (w3 ++ (cu ++ '%' :: (w4 ++ '#' :: ' ' :: d)))))))) =
        .error ()) ∧
    (∀ n w1 v w2 p w3 cu w4 ft : List Char,
      IsNameTok n → IsWsTok w1 → IsNumTok v → IsWsTok w2 →
      IsNumTok p → IsWsTok w3 → IsNumTok cu →
      pyStrip
          (n ++ (w1 ++ (v ++ (w2 ++ (p ++ '%' :: (w3 ++ (cu ++ '%' :: (w4 ++ '(' :: ft)))))))) =
        n ++ (w1 ++ (v ++ (w2 ++ (p ++ '%' :: (w3 ++ (cu ++ '%' :: (w4 ++ '(' :: ft))))))) →
      (n ++ (w1 ++ (v ++ (w2 ++ (p ++ '%' :: (w3 ++ (cu ++ '%' :: (w4 ++ '(' :: ft)))))))).contains '|'
          = false →
      parse_line
          (n ++ (w1 ++ (v ++ (w2 ++ (p ++ '%' :: (w3 ++ (cu ++ '%' :: (w4 ++ '(' :: ft)))))))) =
        .error ()) := by
  refine ⟨?_, ?_, ?_, ?_, ?_, ?_, ?_, ?_, ?_, ?_⟩
  · intro n w1 v w2 d val hn h1 hv h2 hst hpipe hval
    exact orig_line_hash2 hn h1 hv h2 hst hpipe hval
  · intro n w1 v w2 p w3 cu w4 d val pval cval hn h1 hv h2 hp h3 hcu h4 hst hpipe hval hpval hcval
    exact orig_line_hash3 hn h1 hv h2 hp h3 hcu h4 hst hpipe hval hpval hcval
  · intro n w1 v w2 ft val hn h1 hv h2 hcl hst hpipe hval
    exact orig_line_paren2 hn h1 hv h2 hcl hst hpipe hval
  · intro n w1 v w2 p w3 cu w4 ft val pval cval hn h1 hv h2 hp h3 hcu h4 hcl hst hpipe hval hpval hcval
    exact orig_line_paren3 hn h1 hv h2 hp h3 hcu h4 hcl hst hpipe hval hpval hcval
  · intro l hst hpipe
    exact orig_line_divider hst hpipe
  · intro n w1 v w2 d val hn h1 hv h2 hst hpipe hval
    exact gem5_line_hash2 hn h1 hv h2 hst hpipe hval
  · intro n w1 v w2 ft val hn h1 hv h2 hcl hst hpipe hval
    exact gem5_line_paren2 hn h1 hv h2 hcl hst hpipe hval
  · intro l hst hpipe
    exact gem5_line_divider hst hpipe
  · intro n w1 v w2 p w3 cu w4 d hn h1 hv h2 hp h3 hcu h4 hst hpipe
    exact gem5_line_rejects_hash3 hn h1 hv h2 hp h3 hcu h4 hst hpipe
  · intro n w1 v w2 p w3 cu w4 ft hn h1 hv h2 hp h3 hcu hst hpipe
    exact gem5_line_rejects_paren3 hn h1 hv h2 hp h3 hcu hst hpipe

/-- C1, witness: the amended claim applied to the concrete three-number hash
line `sys.l2 7 12% 50% # hits`, which the original classifier parses with
name sys.l2 and value 7. -/
theorem c1_witness :
    parse_line_orig
        ("sys.l2".data ++ ([' '] ++ (['7'] ++ ([' '] ++
          ("12".data ++ '%' :: ([' '] ++ ("50".data ++ '%' :: ([' '] ++ '#' :: ' ' :: "hits".data)))))))) =
      .ok ⟨"sys.l2", .pint 7, some (.pint 12), some (.pint 50), "hits"⟩ :=
  c1_amended.2.1 "sys.l2".data [' '] ['7'] [' '] "12".data [' '] "50".data [' ']
    "hits".data (.pint 7) (.pint 12) (.pint 50)
    (by constructor <;> decide)
    (by constructor <;> decide)
    ⟨[], ['7'], Or.inl rfl, by decide, by decide, rfl⟩
    (by constructor <;> decide)
    ⟨[], "12".data, Or.inl rfl, by decide, by decide, rfl⟩
    (by constructor <;> decide)
    ⟨[], "50".data, Or.inl rfl, by decide, by decide, rfl⟩
    (by decide) (by decide) (by decide) (by decide) (by decide) (by decide)

/-! ## Claims C2, C3, C4, C10 -/

/-- C2, counterexample: a fragment with zero matches is recorded as Python
None itself, the same value a fragment matching one nan-valued stat records,
so the two outputs are equal and no sentinel distinct from null exists in
extract_interest_stats. -/
theorem c2_counterexample :
    extract_interest_stats ["ipc"] [] = [("ipc", .base .pnone)] ∧
    extract_interest_stats ["ipc"] [("ipc", SVal.pnone)] =
      extract_interest_stats ["ipc"] [] := by
  constructor
  · decide
  · decide

/-- C2, amended claim: in the pipeline interest filter a zero-match fragment
records null (Python None), indistinguishable from a fragment matching one
nan-valued stat; the explicit NO_MATCH sentinel with value N/A, which is
distinct from null, exists only in the extraction loop of the original_stats
script. -/
theorem c2_amended (frag : String) (stats : List (String × SVal))
    (ostats : List (String × OStat)) :
    ((∀ p ∈ stats, isSubstrS frag p.1 = false) →
      extract_interest_stats [frag] stats = [(frag, .base .pnone)]) ∧
    ((∀ p ∈ ostats, isSubstrS frag p.1 = false) →
      origExtractRows [frag] ostats = [(frag, "NO_MATCH", .pstr "N/A")]) ∧
    SVal.pstr "N/A" ≠ SVal.pnone := by
  refine ⟨?_, ?_, by decide⟩
  · intro h
    have hf : stats.filter (fun p => isSubstrS frag p.1) = [] :=
      List.filter_eq_nil_iff.mpr (by simpa using h)
    simp [extract_interest_stats, hf, dictInsert]
  · intro h
    have hf : ostats.filter (fun p => isSubstrS frag p.1) = [] :=
      List.filter_eq_nil_iff.mpr (by simpa using h)
    simp [origExtractRows, hf]

/-- C2, witness: the amended claim at the fragment ipc against a block whose
single stat name does not contain it, for both filters. -/
theorem c2_witness :
    extract_interest_stats ["ipc"] [("numCycles", SVal.pint 5)] =
      [("ipc", .base .pnone)] ∧
    origExtractRows ["ipc"] [("numCycles", ⟨"numCycles", SVal.pint 5, none, none, ""⟩)] =
      [("ipc", "NO_MATCH", .pstr "N/A")] :=
  ⟨(c2_amended "ipc" [("numCycles", SVal.pint 5)] []).1 (by decide),
   (c2_amended "ipc" [] [("numCycles", ⟨"numCycles", SVal.pint 5, none, none, ""⟩)]).2.1
     (by decide)⟩

/-- C3, divergence: a run whose log has zero complete Begin/End blocks does
not yield an empty result once the interest list is nonempty.  The original
block collector confirms the file has zero blocks and the first-block parser
returns the empty dict, yet parse_and_extract maps the fragment to None, the
one-row record is nonempty, and parse_all_raw therefore writes a record file
for the run and counts it as a success, contradicting the claim that such a
run is excluded from the persisted table. -/
theorem c3_divergence :
    parse_gem5_stats ["x 1 # d".data] = [] ∧
    parse_stats_file ["x 1 # d".data] = [] ∧
    parse_and_extract ["ipc"] ["x 1 # d".data] = [("ipc", SVal.pnone)] ∧
    (parse_all_raw ["ipc"] [⟨"bfs", "base", ["x 1 # d".data]⟩]).1 =
      [("bfs_base.csv",
        [("ipc", SVal.pnone), ("benchmark", .pstr "bfs"), ("config", .pstr "base")])] ∧
    (parse_all_raw ["ipc"] [⟨"bfs", "base", ["x 1 # d".data]⟩]).2.1 = 1 := by
  refine ⟨by decide, by decide, by decide, by decide, by decide⟩

/-- C4, divergence: load_results hardcodes the config identifier to the
constant default instead of deriving it from the run naming, so the two
distinct persisted runs bfs_base and bfs_opt both load with the pair
(bfs, default) and the pair no longer identifies at most one record, even
though run discovery derives the two distinct configs from the same names. -/
theorem c4_divergence :
    ((load_results METRIC_RULES
        [("bfs_base", ⟨["x"], [[.fin 1]]⟩), ("bfs_opt", ⟨["x"], [[.fin 1]]⟩)]).map
      (fun r => (r.benchmark, r.config))) = [("bfs", "default"), ("bfs", "default")] ∧
    ¬ ((load_results METRIC_RULES
        [("bfs_base", ⟨["x"], [[.fin 1]]⟩), ("bfs_opt", ⟨["x"], [[.fin 1]]⟩)]).map
      (fun r => (r.benchmark, r.config))).Nodup ∧
    autoDiscoverSplit "bfs_base" = some ("bfs", "base") ∧
    autoDiscoverSplit "bfs_opt" = some ("bfs", "opt") := by
  refine ⟨by decide, by decide, by decide, by decide⟩

lemma dictInsert_of_notMem {β : Type} {acc : List (String × β)} {k : String} {v : β}
    (h : k ∉ acc.map Prod.fst) : dictInsert acc k v = acc ++ [(k, v)] := by
  induction acc with
  | nil => rfl
  | cons a t ih =>
    obtain ⟨a1, a2⟩ := a
    have h1 : a1 ≠ k := by
      intro e
      exact h (by simp [e])
    have h2 : k ∉ t.map Prod.fst := by
      intro hm
      exact h (by simp [hm])
    simp [dictInsert, h1, ih h2]

lemma foldl_dictInsert {β : Type} (m : List (String × β)) (acc : List (String × β))
    (hnd : (m.map Prod.fst).Nodup) (hdis : ∀ k ∈ m.map Prod.fst, k ∉ acc.map Prod.fst) :
    m.foldl (fun a q => dictInsert a q.1 q.2) acc = acc ++ m := by
  induction m generalizing acc with
  | nil => simp
  | cons a t ih =>
    obtain ⟨a1, a2⟩ := a
    have hnd' : (t.map Prod.fst).Nodup := by
      simpa using List.Nodup.of_cons (by simpa using hnd)
    have ha1 : a1 ∉ t.map Prod.fst := (List.nodup_cons.mp (by simpa using hnd)).1
    have hdis' : ∀ k ∈ t.map Prod.fst, k ∉ (acc ++ [(a1, a2)]).map Prod.fst := by
      intro k hk hmem
      rw [List.map_append] at hmem
      rcases List.mem_append.mp hmem with hm | hm
      · exact hdis k (by simp [hk]) hm
      · simp at hm
        subst hm
        exact ha1 hk
    simp only [List.foldl_cons]
    rw [dictInsert_of_notMem (hdis a1 (by simp))]
    rw [ih (acc ++ [(a1, a2)]) hnd' hdis']
    simp

/-- C10, counterexample: the fragment ipc matches the two stat names ipc and
cpu.ipc, and the flattened record then contains the fragment name itself as a
column (because a matched full stat name equals it), contradicting the claim
that in the multi-match case the fragment name never appears as a column. -/
theorem c10_counterexample :
    ([("ipc", SVal.pint 1), ("cpu.ipc", SVal.pint 2)].filter
      (fun p => isSubstrS "ipc" p.1)).length = 2 ∧
    flattenRecord (extract_interest_stats ["ipc"] [("ipc", SVal.pint 1), ("cpu.ipc", SVal.pint 2)]) =
      [("ipc", SVal.pint 1), ("cpu.ipc", SVal.pint 2)] ∧
    "ipc" ∈ (flattenRecord
      (extract_interest_stats ["ipc"] [("ipc", SVal.pint 1), ("cpu.ipc", SVal.pint 2)])).map
        Prod.fst := by
  refine ⟨by decide, by decide, by decide⟩

/-- C10, amended claim: a fragment matching exactly one stat name yields the
single column named by the fragment itself carrying the matched value, and a
fragment matching two or more stat names yields exactly one column per
matched full stat name; the fragment name itself appears as a column in the
multi-match case only when it is itself one of the matched stat names. -/
theorem c10_amended (frag : String) (stats : List (String × SVal)) :
    (∀ n v, stats.filter (fun p => isSubstrS frag p.1) = [(n, v)] →
      flattenRecord (extract_interest_stats [frag] stats) = [(frag, v)]) ∧
    ((stats.map Prod.fst).Nodup →
      2 ≤ (stats.filter (fun p => isSubstrS frag p.1)).length →
      flattenRecord (extract_interest_stats [frag] stats) =
          stats.filter (fun p => isSubstrS frag p.1) ∧
        (frag ∉ (stats.filter (fun p => isSubstrS frag p.1)).map Prod.fst →
          frag ∉ (flattenRecord (extract_interest_stats [frag] stats)).map Prod.fst)) := by
  constructor
  · intro n v hf
    have hext : extract_interest_stats [frag] stats = [(frag, .base v)] := by
      simp only [extract_interest_stats, List.foldl_cons, List.foldl_nil, hf]
      simp [dictInsert]
    rw [hext]
    simp [flattenRecord, dictInsert]
  · intro hnd hlen
    have hne : (stats.filter (fun p => isSubstrS frag p.1)).isEmpty = false := by
      cases hf : stats.filter (fun p => isSubstrS frag p.1) with
      | nil => rw [hf] at hlen; simp at hlen
      | cons a t => simp
    have hl1 : (stats.filter (fun p => isSubstrS frag p.1)).length ≠ 1 := by
      omega
    have hsub : ((stats.filter (fun p => isSubstrS frag p.1)).map Prod.fst).Nodup := by
      have hs : (stats.filter (fun p => isSubstrS frag p.1)).Sublist stats :=
        List.filter_sublist stats
      exact hnd.sublist (hs.map Prod.fst)
    have hext : extract_interest_stats [frag] stats =
        [(frag, .dict (stats.filter (fun p => isSubstrS frag p.1)))] := by
      simp only [extract_interest_stats, List.foldl_cons, List.foldl_nil]
      simp [hne, hl1, dictInsert]
    have hflat : flattenRecord (extract_interest_stats [frag] stats) =
        stats.filter (fun p => isSubstrS frag p.1) := by
      rw [hext]
      simp only [flattenRecord, List.foldl_cons, List.foldl_nil]
      rw [foldl_dictInsert _ [] hsub (by simp)]
      simp
    exact ⟨hflat, fun hnm => by rw [hflat]; exact hnm⟩

/-- C10, witness: the amended claim at the fragment ipc matching exactly the
stat cpu0.ipc, whose flattened record has the one column ipc named by the
fragment rather than by the full stat name. -/
theorem c10_witness :
    flattenRecord (extract_interest_stats ["ipc"] [("cpu0.ipc", SVal.pint 5)]) =
      [("ipc", SVal.pint 5)] :=
  (c10_amended "ipc" [("cpu0.ipc", SVal.pint 5)]).1 "cpu0.ipc" (SVal.pint 5) (by decide)

/-! ## Claims C5 and C6 -/

lemma mean_of_all_nan {l : List PFloat} (h : ∀ x ∈ l, x = PFloat.nan) :
    PFloat.mean l = .nan := by
  have hf : l.filter (fun x => !x.isNan) = [] := by
    apply List.filter_eq_nil_iff.mpr
    intro a ha
    rw [h a ha]
    decide
  simp [PFloat.mean, hf]

lemma div_nan_right (x : PFloat) : PFloat.div x PFloat.nan = PFloat.nan := by
  cases x <;> rfl

lemma zipWith_div_all_nan (a : List PFloat) {b : List PFloat}
    (h : ∀ y ∈ b, y = PFloat.nan) :
    ∀ x ∈ List.zipWith PFloat.div a b, x = PFloat.nan := by
  induction a generalizing b with
  | nil => simp
  | cons x xs ih =>
    cases b with
    | nil => simp
    | cons y ys =>
      intro z hz
      simp only [List.zipWith_cons_cons, List.mem_cons] at hz
      rcases hz with rfl | hz
      · rw [h y (by simp)]
        exact div_nan_right x
      · exact ih (fun u hu => h u (by simp [hu])) z hz

/-- C5: for every run table and every metric rule, a pattern matching zero
column names forces the whole rule to NaN, and a ratio rule whose two
patterns both match columns computes exactly the spec formula: the mean over
the sample dimension of the element-wise quotient of the per-row means of
the matched column sets. -/
theorem c5_rule_semantics (df : Frame) (r : Rule) :
    ((∃ p ∈ r.patterns, selectCols df p = []) → compute_metric df r = .nan) ∧
    (∀ pA pB, r.patterns = [pA, pB] → r.op = .ratio →
      selectCols df pA ≠ [] → selectCols df pB ≠ [] →
      compute_metric df r = specRatioMetric df pA pB) := by
  constructor
  · rintro ⟨p, hpmem, hzero⟩
    have hmem : (none : Option (List PFloat)) ∈ build_vectors df r.patterns := by
      simp only [build_vectors]
      exact List.mem_map.mpr ⟨p, hpmem, by simp [hzero]⟩
    have hany : (build_vectors df r.patterns).any (fun v => v.isNone) = true :=
      List.any_eq_true.mpr ⟨none, hmem, rfl⟩
    simp [compute_metric, hany]
  · intro pA pB hpat hop hA hB
    have hbv : build_vectors df r.patterns =
        [some (patVector df pA), some (patVector df pB)] := by
      rw [hpat]
      simp [build_vectors, hA, hB]
    simp [compute_metric, hbv, hop, apply_op, specRatioMetric]

/-- C5, witness: the ratio clause of the rule-semantics theorem at a concrete
two-column one-row table. -/
theorem c5_witness :
    compute_metric ⟨["a", "b"], [[PFloat.nan, PFloat.nan]]⟩
        ⟨[fun s => s == "a", fun s => s == "b"], .ratio⟩ =
      specRatioMetric ⟨["a", "b"], [[PFloat.nan, PFloat.nan]]⟩
        (fun s => s == "a") (fun s => s == "b") :=
  (c5_rule_semantics ⟨["a", "b"], [[PFloat.nan, PFloat.nan]]⟩
    ⟨[fun s => s == "a", fun s => s == "b"], .ratio⟩).2
    (fun s => s == "a") (fun s => s == "b") rfl rfl (by decide) (by decide)

/-- C6, counterexample: a ratio rule whose two patterns each match one column
of a one-row run table with numerator one and denominator zero evaluates to
positive infinity, not NaN, because numpy division of a nonzero value by
zero yields a signed infinity. -/
theorem c6_counterexample :
    compute_metric ⟨["a", "b"], [[.fin 1, .fin 0]]⟩
        ⟨[fun s => s == "a", fun s => s == "b"], .ratio⟩ = .inf ∧
    PFloat.inf ≠ PFloat.nan := by
  constructor
  · simp [compute_metric, build_vectors, selectCols, patVector, rowCells, apply_op,
      PFloat.mean, PFloat.sum, PFloat.isNan, PFloat.add, PFloat.div]
  · decide

/-- C6, amended claim: for a ratio rule whose patterns both match, division
by an all-null denominator vector yields NaN for that run, while division of
a nonzero finite numerator by a zero denominator yields a signed infinity
(positive for a positive numerator, negative for a negative one), never an
engine abort; and the records other runs produce are computed independently,
one per file, so they are unaffected. -/
theorem c6_amended (df : Frame) (pA pB : String → Bool) (q : ℚ) (row : List PFloat)
    (hA : selectCols df pA ≠ []) (hB : selectCols df pB ≠ []) :
    (df.rows = [row] → PFloat.mean (rowCells df pA row) = .fin q → q ≠ 0 →
      PFloat.mean (rowCells df pB row) = .fin 0 →
      compute_metric df ⟨[pA, pB], .ratio⟩ =
        (if 0 < q then PFloat.inf else PFloat.ninf)) ∧
    ((∀ rr ∈ df.rows, PFloat.mean (rowCells df pB rr) = .nan) →
      compute_metric df ⟨[pA, pB], .ratio⟩ = .nan) ∧
    (∀ (rules : List (String × Rule)) (fs1 fs2 : List (String × Frame)) (f : String × Frame),
      load_results rules (fs1 ++ f :: fs2) =
        load_results rules fs1 ++ load_results rules [f] ++ load_results rules fs2) := by
  have hbv : build_vectors df [pA, pB] =
      [some (patVector df pA), some (patVector df pB)] := by
    simp [build_vectors, hA, hB]
  refine ⟨?_, ?_, ?_⟩
  · intro hrows hmA hq hmB
    have hdiv : PFloat.div (PFloat.fin q) (PFloat.fin 0) =
        (if 0 < q then PFloat.inf else PFloat.ninf) := by
      simp [PFloat.div, hq]
    simp only [compute_metric, hbv, apply_op, List.any_cons, List.any_nil,
      Option.isNone_some, Bool.or_self, Bool.false_eq_true, if_false,
      List.reduceOption_cons_of_some, List.reduceOption_nil]
    simp only [patVector, hrows, List.map_cons, List.map_nil, hmA, hmB,
      List.zipWith_cons_cons, List.zipWith_nil_right, hdiv]
    by_cases h0 : 0 < q
    · simp only [h0, if_true]
      simp [PFloat.mean, PFloat.isNan, PFloat.sum, PFloat.add, PFloat.div]
    · simp only [h0, if_false]
      simp [PFloat.mean, PFloat.isNan, PFloat.sum, PFloat.add, PFloat.div]
  · intro hall
    have hzn : ∀ x ∈ List.zipWith PFloat.div (patVector df pA) (patVector df pB),
        x = PFloat.nan := by
      apply zipWith_div_all_nan
      intro y hy
      simp only [patVector, List.mem_map] at hy
      obtain ⟨rr, hrr, rfl⟩ := hy
      exact hall rr hrr
    simp only [compute_metric, hbv, apply_op, List.any_cons, List.any_nil,
      Option.isNone_some, Bool.or_self, Bool.false_eq_true, if_false,
      List.reduceOption_cons_of_some, List.reduceOption_nil]
    exact mean_of_all_nan hzn
  · intro rules fs1 fs2 f
    simp [load_results]

/-- C6, witness: the zero-denominator clause and the all-null clause of the
amended claim at concrete one-row tables. -/
theorem c6_witness :
    compute_metric ⟨["a", "b"], [[PFloat.fin 1, PFloat.fin 0]]⟩
        ⟨[fun s => s == "a", fun s => s == "b"], .ratio⟩ = .inf ∧
    compute_metric ⟨["a", "b"], [[PFloat.fin 1, PFloat.nan]]⟩
        ⟨[fun s => s == "a", fun s => s == "b"], .ratio⟩ = .nan := by
  constructor
  · have h := (c6_amended ⟨["a", "b"], [[PFloat.fin 1, PFloat.fin 0]]⟩
      (fun s => s == "a") (fun s => s == "b") 1 [PFloat.fin 1, PFloat.fin 0]
      (by decide) (by decide)).1 rfl
      (by simp [rowCells, PFloat.mean, PFloat.isNan, PFloat.sum, PFloat.add, PFloat.div])
      one_ne_zero
      (by simp [rowCells, PFloat.mean, PFloat.isNan, PFloat.sum, PFloat.add, PFloat.div])
    simpa using h
  · exact (c6_amended ⟨["a", "b"], [[PFloat.fin 1, PFloat.nan]]⟩
      (fun s => s == "a") (fun s => s == "b") 1 [PFloat.fin 1, PFloat.nan]
      (by decide) (by decide)).2.1
      (by intro rr hrr
          simp only [List.mem_singleton] at hrr
          subst hrr
          simp [rowCells, PFloat.mean, PFloat.isNan])

/-! ## Claims C7 and C8 -/

/-- C7, counterexample: with an empty grouped table, the metric cpu_ipc is
not one of its columns, yet select returns the empty table instead of the
named error the claim requires for every metric that is not a column. -/
theorem c7_counterexample :
    select [] "cpu_ipc" ["bfs"] ["default"] = .emptyTable ∧
    "cpu_ipc" ∉ gcols ([] : List Record) ∧
    SelectResult.emptyTable ≠ SelectResult.err "cpu_ipc" := by
  refine ⟨by decide, by decide, by decide⟩

/-- C7, amended claim: on an empty grouped table every call returns the
empty table; on a nonempty table an unknown metric fails with the error
naming exactly the requested metric and nothing else, and a known metric
whose post-filter selection matches no rows returns the empty table rather
than an error. -/
theorem c7_amended (g : List Record) (metric : String) (bs cs : List String) :
    (g = [] → select g metric bs cs = .emptyTable) ∧
    (g ≠ [] → metric ∉ gcols g → select g metric bs cs = .err metric) ∧
    (metric ∈ gcols g → filteredRecords g bs cs = [] →
      select g metric bs cs = .emptyTable) ∧
    (∀ m, select g metric bs cs = .err m → m = metric) := by
  refine ⟨?_, ?_, ?_, ?_⟩
  · intro hg
    subst hg
    simp [select]
  · intro hg hm
    simp [select, hg, hm]
  · intro hm hf
    have hg : g ≠ [] := by
      intro e
      subst e
      simp [gcols] at hm
    simp [select, hg, hm, hf]
  · intro m he
    unfold select at he
    split_ifs at he
    all_goals
      rcases eq_or_ne (filteredRecords g bs cs) [] with hfe | hfe <;>
        (try simp [hfe] at he) <;> simp_all

/-- C7, witness: the unknown-metric clause of the amended claim at a
one-record table and the metric name nope. -/
theorem c7_witness :
    select [⟨"a", "default", [("cpu_ipc", PFloat.nan)]⟩] "nope" ["a"] ["default"] =
      .err "nope" :=
  (c7_amended [⟨"a", "default", [("cpu_ipc", PFloat.nan)]⟩] "nope" ["a"] ["default"]).2.1
    (by decide) (by decide)

lemma mem_sInsert {x a : String} {l : List String} :
    x ∈ sInsert a l ↔ x = a ∨ x ∈ l := by
  induction l with
  | nil => simp [sInsert]
  | cons b t ih =>
    simp only [sInsert]
    split_ifs
    · simp
    · simp [ih]
      tauto

lemma mem_foldl_sInsert (l : List String) (acc : List String) (x : String) :
    x ∈ l.foldl (fun a b => sInsert b a) acc ↔ x ∈ acc ∨ x ∈ l := by
  induction l generalizing acc with
  | nil => simp
  | cons b t ih =>
    simp only [List.foldl_cons, ih, mem_sInsert, List.mem_cons]
    tauto

lemma mem_sortedKeys {x : String} {l : List String} : x ∈ sortedKeys l ↔ x ∈ l := by
  simp [sortedKeys, mem_foldl_sInsert, List.mem_dedup]

lemma foldl_add_fin (l : List PFloat) (q0 : ℚ)
    (h : ∀ x ∈ l, ∃ q : ℚ, x = PFloat.fin q) :
    ∃ q : ℚ, l.foldl PFloat.add (.fin q0) = .fin q := by
  induction l generalizing q0 with
  | nil => exact ⟨q0, rfl⟩
  | cons x xs ih =>
    obtain ⟨qx, rfl⟩ := h x (by simp)
    have hstep : PFloat.add (.fin q0) (.fin qx) = .fin (q0 + qx) := rfl
    simp only [List.foldl_cons, hstep]
    exact ih (q0 + qx) (fun y hy => h y (by simp [hy]))

lemma mean_fin_of_all_fin {l : List PFloat} (hne : l ≠ [])
    (h : ∀ x ∈ l, ∃ q : ℚ, x = PFloat.fin q) : ∃ q : ℚ, PFloat.mean l = .fin q := by
  have hfl : l.filter (fun x => !x.isNan) = l := by
    apply List.filter_eq_self.mpr
    intro a ha
    obtain ⟨q, rfl⟩ := h a ha
    rfl
  obtain ⟨s, hs⟩ := foldl_add_fin l 0 h
  have hlen : ((l.length : ℚ) = 0) = False := by
    simp [hne]
  have hni : l.isEmpty = false := by
    simp [hne]
  refine ⟨s / l.length, ?_⟩
  simp only [PFloat.mean, hfl]
  simp [hni, PFloat.sum, hs, PFloat.div, hlen]

/-- C8: with a known metric and a nonempty post-filter selection, the result
shape of select is determined by the cardinalities of the requested
selections: several benchmarks with exactly one config give a series indexed
by the selected benchmarks, one benchmark with several configs a series
indexed by the selected configs, several of each a pivot table whose row
keys are selected benchmarks and column keys selected configs (exactly the
selected ones when every selected record carries a finite metric value;
pivot_table's default dropna removes a benchmark or config whose groups all
aggregate to NaN), and exactly one of each the empty table, never a
single-cell value. -/
theorem c8_result_shapes (g : List Record) (metric : String) (bs cs : List String)
    (hm : metric ∈ gcols g) (hf : filteredRecords g bs cs ≠ []) :
    (1 < bs.length → cs.length = 1 →
      ∃ s, select g metric bs cs = .byBenchmark s ∧
        ∀ b, b ∈ s.map Prod.fst ↔ b ∈ (filteredRecords g bs cs).map Record.benchmark) ∧
    (bs.length = 1 → 1 < cs.length →
      ∃ s, select g metric bs cs = .byConfig s ∧
        ∀ c, c ∈ s.map Prod.fst ↔ c ∈ (filteredRecords g bs cs).map Record.config) ∧
    (1 < bs.length → 1 < cs.length →
      ∃ rk ck cells, select g metric bs cs = .pivot rk ck cells ∧
        (∀ b ∈ rk, b ∈ (filteredRecords g bs cs).map Record.benchmark) ∧
        (∀ c ∈ ck, c ∈ (filteredRecords g bs cs).map Record.config) ∧
        ((∀ r ∈ filteredRecords g bs cs, ∃ q : ℚ, getMetric r metric = .fin q) →
          (∀ b, b ∈ rk ↔ b ∈ (filteredRecords g bs cs).map Record.benchmark) ∧
          (∀ c, c ∈ ck ↔ c ∈ (filteredRecords g bs cs).map Record.config))) ∧
    (bs.length = 1 → cs.length = 1 → select g metric bs cs = .emptyTable) := by
  have hg : g ≠ [] := by
    intro e
    subst e
    simp [gcols] at hm
  refine ⟨?_, ?_, ?_, ?_⟩
  · intro hb hc
    refine ⟨groupAgg (filteredRecords g bs cs) Record.benchmark metric, ?_, ?_⟩
    · simp [select, hg, hm, hf, hb, hc]
    · intro b
      simp [groupAgg, List.map_map, Function.comp, mem_sortedKeys]
  · intro hb hc
    have hb1 : ¬ (1 < bs.length) := by omega
    refine ⟨groupAgg (filteredRecords g bs cs) Record.config metric, ?_, ?_⟩
    · simp [select, hg, hm, hf, hb, hc, hb1]
    · intro c
      simp [groupAgg, List.map_map, Function.comp, mem_sortedKeys]
  · intro hb hc
    have hc1 : ¬ (cs.length = 1) := by omega
    have hb1 : ¬ (bs.length = 1) := by omega
    have hsubB : ∀ b ∈ sortedKeys ((pivotGroups (filteredRecords g bs cs) metric).map Prod.fst),
        b ∈ (filteredRecords g bs cs).map Record.benchmark := by
      intro b hbmem
      rw [mem_sortedKeys] at hbmem
      obtain ⟨bc, hbc, rfl⟩ := List.mem_map.mp hbmem
      have hbc2 := List.mem_dedup.mp (List.mem_of_mem_filter hbc)
      obtain ⟨r, hr, rfl⟩ := List.mem_map.mp hbc2
      exact List.mem_map.mpr ⟨r, hr, rfl⟩
    have hsubC : ∀ c ∈ sortedKeys ((pivotGroups (filteredRecords g bs cs) metric).map Prod.snd),
        c ∈ (filteredRecords g bs cs).map Record.config := by
      intro c hcmem
      rw [mem_sortedKeys] at hcmem
      obtain ⟨bc, hbc, rfl⟩ := List.mem_map.mp hcmem
      have hbc2 := List.mem_dedup.mp (List.mem_of_mem_filter hbc)
      obtain ⟨r, hr, rfl⟩ := List.mem_map.mp hbc2
      exact List.mem_map.mpr ⟨r, hr, rfl⟩
    refine ⟨sortedKeys ((pivotGroups (filteredRecords g bs cs) metric).map Prod.fst),
      sortedKeys ((pivotGroups (filteredRecords g bs cs) metric).map Prod.snd),
      (sortedKeys ((pivotGroups (filteredRecords g bs cs) metric).map Prod.fst)).map (fun b =>
        (sortedKeys ((pivotGroups (filteredRecords g bs cs) metric).map Prod.snd)).map (fun c =>
          groupCell (filteredRecords g bs cs) metric b c)), ?_, hsubB, hsubC, ?_⟩
    · simp [select, hg, hm, hf, hb, hc, hb1, hc1]
    · intro hfin
      have hgroup : ∀ r ∈ filteredRecords g bs cs,
          (r.benchmark, r.config) ∈ pivotGroups (filteredRecords g bs cs) metric := by
        intro r hr
        apply List.mem_filter.mpr
        refine ⟨List.mem_dedup.mpr (List.mem_map.mpr ⟨r, hr, rfl⟩), ?_⟩
        have hrin : r ∈ ((filteredRecords g bs cs).filter
            (fun x => x.benchmark = r.benchmark)).filter (fun x => x.config = r.config) := by
          refine List.mem_filter.mpr ⟨List.mem_filter.mpr ⟨hr, by simp⟩, by simp⟩
        have hcell : ∃ q : ℚ, groupCell (filteredRecords g bs cs) metric
            r.benchmark r.config = .fin q := by
          apply mean_fin_of_all_fin
          · exact List.ne_nil_of_mem (List.mem_map.mpr ⟨r, hrin, rfl⟩)
          · intro x hx
            obtain ⟨r2, hr2, rfl⟩ := List.mem_map.mp hx
            exact hfin r2 (List.mem_of_mem_filter (List.mem_of_mem_filter hr2))
        obtain ⟨q, hq⟩ := hcell
        rw [hq]
        rfl
      constructor
      · intro b
        refine ⟨hsubB b, ?_⟩
        intro hbm
        obtain ⟨r, hr, rfl⟩ := List.mem_map.mp hbm
        rw [mem_sortedKeys]
        exact List.mem_map.mpr ⟨(r.benchmark, r.config), hgroup r hr, rfl⟩
      · intro c
        refine ⟨hsubC c, ?_⟩
        intro hcm
        obtain ⟨r, hr, rfl⟩ := List.mem_map.mp hcm
        rw [mem_sortedKeys]
        exact List.mem_map.mpr ⟨(r.benchmark, r.config), hgroup r hr, rfl⟩
  · intro hb hc
    have hb1 : ¬ (1 < bs.length) := by omega
    have hc1 : ¬ (1 < cs.length) := by omega
    simp [select, hg, hm, hf, hb, hc, hb1, hc1]

/-- C8, witness: the benchmark-series clause at a table of two benchmarks
under one config, and the pivot clause at a two-by-two table of finite
metric values, where the dropna-surviving keys are exactly the selected
benchmarks and configs. -/
theorem c8_witness :
    (∃ s, select [⟨"a", "default", [("m", PFloat.nan)]⟩, ⟨"b", "default", [("m", PFloat.nan)]⟩]
        "m" ["a", "b"] ["default"] = .byBenchmark s ∧
      ∀ b, b ∈ s.map Prod.fst ↔
        b ∈ (filteredRecords
          [⟨"a", "default", [("m", PFloat.nan)]⟩, ⟨"b", "default", [("m", PFloat.nan)]⟩]
          ["a", "b"] ["default"]).map Record.benchmark) ∧
    (∃ rk ck cells,
      select [⟨"a", "c1", [("m", PFloat.fin 1)]⟩, ⟨"a", "c2", [("m", PFloat.fin 1)]⟩,
          ⟨"b", "c1", [("m", PFloat.fin 1)]⟩, ⟨"b", "c2", [("m", PFloat.fin 1)]⟩]
        "m" ["a", "b"] ["c1", "c2"] = .pivot rk ck cells ∧
      (∀ b ∈ rk, b ∈ (filteredRecords
        [⟨"a", "c1", [("m", PFloat.fin 1)]⟩, ⟨"a", "c2", [("m", PFloat.fin 1)]⟩,
          ⟨"b", "c1", [("m", PFloat.fin 1)]⟩, ⟨"b", "c2", [("m", PFloat.fin 1)]⟩]
        ["a", "b"] ["c1", "c2"]).map Record.benchmark) ∧
      (∀ c ∈ ck, c ∈ (filteredRecords
        [⟨"a", "c1", [("m", PFloat.fin 1)]⟩, ⟨"a", "c2", [("m", PFloat.fin 1)]⟩,
          ⟨"b", "c1", [("m", PFloat.fin 1)]⟩, ⟨"b", "c2", [("m", PFloat.fin 1)]⟩]
        ["a", "b"] ["c1", "c2"]).map Record.config) ∧
      ((∀ r ∈ filteredRecords
          [⟨"a", "c1", [("m", PFloat.fin 1)]⟩, ⟨"a", "c2", [("m", PFloat.fin 1)]⟩,
            ⟨"b", "c1", [("m", PFloat.fin 1)]⟩, ⟨"b", "c2", [("m", PFloat.fin 1)]⟩]
          ["a", "b"] ["c1", "c2"], ∃ q : ℚ, getMetric r "m" = .fin q) →
        (∀ b, b ∈ rk ↔ b ∈ (filteredRecords
          [⟨"a", "c1", [("m", PFloat.fin 1)]⟩, ⟨"a", "c2", [("m", PFloat.fin 1)]⟩,
            ⟨"b", "c1", [("m", PFloat.fin 1)]⟩, ⟨"b", "c2", [("m", PFloat.fin 1)]⟩]
          ["a", "b"] ["c1", "c2"]).map Record.benchmark) ∧
        (∀ c, c ∈ ck ↔ c ∈ (filteredRecords
          [⟨"a", "c1", [("m", PFloat.fin 1)]⟩, ⟨"a", "c2", [("m", PFloat.fin 1)]⟩,
            ⟨"b", "c1", [("m", PFloat.fin 1)]⟩, ⟨"b", "c2", [("m", PFloat.fin 1)]⟩]
          ["a", "b"] ["c1", "c2"]).map Record.config))) :=
  ⟨(c8_result_shapes
      [⟨"a", "default", [("m", PFloat.nan)]⟩, ⟨"b", "default", [("m", PFloat.nan)]⟩]
      "m" ["a", "b"] ["default"] (by decide) (by decide)).1 (by decide) (by decide),
   (c8_result_shapes
      [⟨"a", "c1", [("m", PFloat.fin 1)]⟩, ⟨"a", "c2", [("m", PFloat.fin 1)]⟩,
        ⟨"b", "c1", [("m", PFloat.fin 1)]⟩, ⟨"b", "c2", [("m", PFloat.fin 1)]⟩]
      "m" ["a", "b"] ["c1", "c2"] (by decide) (by decide)).2.2.1 (by decide) (by decide)⟩

/-! ## Claim C9 -/

/-- C9, counterexample: the token 1e5 is not nan, inf, a percent token, a dot
token or a digit token, so its integer parse fails; the original_stats
parse_value then raises instead of falling back to float, and the wellformed
line carrying it is dropped by the enclosing classifier, while the pipeline
parse_value of gem5_parser does fall back and yields the float 100000. -/
theorem c9_counterexample :
    parse_value_orig ['1', 'e', '5'] = .error () ∧
    parse_line_orig "foo 1e5 # d".data = .error () ∧
    parse_value_gem ['1', 'e', '5'] = .ok (.pfloat (.fin 100000)) := by
  refine ⟨by decide, by decide, ?_⟩
  simp [parse_value_gem, pyIsdigitTest, pyFloatParse, pyFloatMag, pyFloatCore,
    asciiLower, digitsToNat, digitVal]
  norm_num

/-- C9, amended claim for the pipeline value parser of gem5_parser: nan gives
null, inf gives exactly the finite sentinel ten to the ninety-ninth and
never the IEEE infinity value, a percent token gives the float of its
numeric portion, a dot token gives a float, a token passing the
minus-stripped digit test with a succeeding integer parse gives that
integer, and any other token falls back to float and then to the raw
string; a token passing the digit test whose integer parse still fails (two
or more leading minus signs) raises, and the original_stats parse_value
raises whenever the integer parse of such an other token fails, with no
float or string fallback. -/
theorem c9_amended :
    (parse_value_gem ['n', 'a', 'n'] = .ok .pnone) ∧
    (parse_value_gem ['i', 'n', 'f'] = .ok (.pfloat (.fin ((10 : ℚ) ^ 99)))) ∧
    (∀ q : ℚ, PFloat.fin q ≠ PFloat.inf) ∧
    (parse_value_gem ['4', '2'] = .ok (.pint 42)) ∧
    (parse_value_gem "3.14".data = .ok (.pfloat (.fin (157 / 50)))) ∧
    (parse_value_gem "12%".data = .ok (.pfloat (.fin 12))) ∧
    (∀ l : List Char, ∀ z : ℤ,
      l ≠ ['n', 'a', 'n'] → l ≠ ['i', 'n', 'f'] →
      l.contains '%' = false → l.contains '.' = false →
      pyIsdigitTest (l.dropWhile (fun c => c = '-')) = true →
      pyIntParse l = some z → parse_value_gem l = .ok (.pint z)) ∧
    (∀ l : List Char, ∀ f : PFloat,
      l ≠ ['n', 'a', 'n'] → l ≠ ['i', 'n', 'f'] →
      l.contains '%' = false → l.contains '.' = false →
      pyIsdigitTest (l.dropWhile (fun c => c = '-')) = false →
      pyFloatParse l = some f → parse_value_gem l = .ok (.pfloat f)) ∧
    (∀ l : List Char,
      l ≠ ['n', 'a', 'n'] → l ≠ ['i', 'n', 'f'] →
      l.contains '%' = false → l.contains '.' = false →
      pyIsdigitTest (l.dropWhile (fun c => c = '-')) = false →
      pyFloatParse l = none → parse_value_gem l = .ok (.pstr (String.mk l))) ∧
    (∀ l : List Char,
      l ≠ ['n', 'a', 'n'] → l ≠ ['i', 'n', 'f'] →
      l.contains '%' = false → l.contains '.' = false →
      pyIsdigitTest (l.dropWhile (fun c => c = '-')) = true →
      pyIntParse l = none → parse_value_gem l = .error ()) ∧
    (∀ l : List Char,
      l ≠ ['n', 'a', 'n'] → l ≠ ['i', 'n', 'f'] →
      l.contains '%' = false → l.contains '.' = false →
      pyIntParse l = none → parse_value_orig l = .error ()) := by
  refine ⟨by decide, rfl, ?_, by decide, ?_, ?_, ?_, ?_, ?_, ?_, ?_⟩
  · intro q h
    exact PFloat.noConfusion h
  · simp [parse_value_gem, pyIsdigitTest, pyFloatParse, pyFloatMag, pyFloatCore,
      asciiLower, digitsToNat, digitVal]
    norm_num
  · simp [parse_value_gem, pyStripChar, pyIsdigitTest, pyFloatParse, pyFloatMag,
      pyFloatCore, asciiLower, digitsToNat, digitVal]
  · intro l z h1 h2 h3 h4 h5 h6
    simp at h3 h4
    simp [parse_value_gem, h1, h2, h3, h4, h5, h6]
  · intro l f h1 h2 h3 h4 h5 h6
    simp at h3 h4
    simp [parse_value_gem, h1, h2, h3, h4, h5, h6]
  · intro l h1 h2 h3 h4 h5 h6
    simp at h3 h4
    simp [parse_value_gem, h1, h2, h3, h4, h5, h6]
  · intro l h1 h2 h3 h4 h5 h6
    simp at h3 h4
    simp [parse_value_gem, h1, h2, h3, h4, h5, h6]
  · intro l h1 h2 h3 h4 h6
    simp at h3 h4
    simp [parse_value_orig, h1, h2, h3, h4, h6]

/-- C9, witness: the integer clause of the amended claim at the token 7. -/
theorem c9_witness : parse_value_gem ['7'] = .ok (.pint 7) :=
  c9_amended.2.2.2.2.2.2.1 ['7'] 7 (by decide) (by decide) (by decide) (by decide)
    (by decide) (by decide)

end Gem5
